import Mathlib

/-!
Verification of the stream-reconciliation protocol client of the
ClawControl repository (`src/lib/openclaw/client.ts`).

Text is modelled as `List Char` (the JavaScript string operations used by
the client — `startsWith`, `endsWith`, `slice`, `length`, concatenation —
are the corresponding list operations).  The ANSI-stripping and
content-extraction helpers (`stripAnsi`, `extractTextFromContent`) are
pure preprocessing of the wire payload into a string; events in this
development carry the already-extracted text, and the reconciliation
logic below is translated from the source after that boundary.
-/

namespace ClawControl

abbrev Text := List Char

/-- The block separator `'\n\n'` used by `mergeIncoming` and
`applyStreamText` in `client.ts`. -/
def separator : Text := ['\n', '\n']

/-- JavaScript `String.prototype.includes`: `needle` occurs contiguously
inside `haystack`. -/
def containsSub (needle : Text) : Text → Bool
  | [] => needle.isEmpty
  | c :: rest => needle.isPrefixOf (c :: rest) || containsSub needle rest

/-- `isHeartbeatContent` from `utils.ts`: the upper-cased text contains
`HEARTBEAT_OK` or `HEARTBEAT.MD`. -/
def isHeartbeatContent (text : Text) : Bool :=
  let upper := text.map Char.toUpper
  containsSub "HEARTBEAT_OK".toList upper || containsSub "HEARTBEAT.MD".toList upper

/-- The overlap-repair loop of `mergeIncoming` (delta branch):
`for (let i = maxOverlap; i > 0; i--) if (previous.endsWith(incoming.slice(0, i))) return previous + incoming.slice(i)`,
falling through to `previous + incoming`. -/
def overlapLoop (previous incoming : Text) : Nat → Text
  | 0 => previous ++ incoming
  | i + 1 =>
    if (incoming.take (i + 1)).isSuffixOf previous then
      previous ++ incoming.drop (i + 1)
    else
      overlapLoop previous incoming i

/-- The overlap length found by the loop of `mergeIncoming` (delta branch):
the largest `i ≤ n` such that `incoming.take i` is a suffix of `previous`
(0 when none is). -/
def overlapAmount (previous incoming : Text) : Nat → Nat
  | 0 => 0
  | i + 1 =>
    if (incoming.take (i + 1)).isSuffixOf previous then i + 1
    else overlapAmount previous incoming i

inductive Mode where
  | delta
  | cumulative
deriving DecidableEq

/-- `mergeIncoming` from `client.ts`, over the two state fields it touches:
`assistantStreamText` (`previous`) and `currentBlockOffset`.  Returns the
merged text together with the (possibly updated) block offset; in the
source only the cumulative new-block branch writes `currentBlockOffset`. -/
def mergeIncoming (previous : Text) (blockOffset : Nat) (incoming : Text)
    (modeHint : Mode) : Text × Nat :=
  match modeHint with
  | .cumulative =>
    if previous.isEmpty then (incoming, blockOffset)
    else if incoming == previous then (previous, blockOffset)
    -- Normal cumulative growth: incoming extends the full accumulated text
    else if previous.isPrefixOf incoming then (incoming, blockOffset)
    else
      -- Check if incoming extends just the current content block
      let currentBlock := previous.drop blockOffset
      if !currentBlock.isEmpty && currentBlock.isPrefixOf incoming then
        (previous.take blockOffset ++ incoming, blockOffset)
      else
        -- New content block detected — accumulate rather than replace.
        (previous ++ separator ++ incoming, previous.length + separator.length)
  | .delta =>
    -- Some servers send cumulative strings even in "delta" fields.
    if !previous.isEmpty && previous.isPrefixOf incoming then (incoming, blockOffset)
    -- Some servers repeat a suffix; avoid regressions.
    else if !previous.isEmpty && incoming.isSuffixOf previous then (previous, blockOffset)
    -- Fallback for partial overlap between chunk boundaries.
    else if !previous.isEmpty then
      (overlapLoop previous incoming (min previous.length incoming.length), blockOffset)
    else (previous ++ incoming, blockOffset)

/-- `applyStreamText` from `client.ts`, over the text it reads and writes:
returns the new `assistantStreamText` and the list of chunk texts emitted
(at most one).  The `sessionKey` attached to the emitted chunk is added by
the state-level wrapper below. -/
def applyStreamTextPure (previous nextText : Text) : Text × List Text :=
  if nextText.isEmpty then (previous, [])
  else if nextText == previous then (previous, [])
  else if previous.isEmpty then (nextText, [nextText])
  else if previous.isPrefixOf nextText then
    let app := nextText.drop previous.length
    (nextText, if app.isEmpty then [] else [app])
  else
    -- New content block — accumulate rather than replace.
    (previous ++ separator ++ nextText, [separator ++ nextText])

/-- The two text-pipeline fields of the stream state. -/
structure TextState where
  text : Text
  blockOffset : Nat
deriving DecidableEq

/-- One reconciliation step on the text pipeline: `mergeIncoming` followed
by `applyStreamText`, exactly as every chunk-bearing branch of
`handleNotification` sequences them. -/
def processIncoming (st : TextState) (incoming : Text) (mode : Mode) :
    TextState × List Text :=
  let m := mergeIncoming st.text st.blockOffset incoming mode
  let a := applyStreamTextPure st.text m.1
  (⟨a.1, m.2⟩, a.2)

/-- Process a whole sequence of incoming texts, collecting every emitted
chunk in order. -/
def processAll (st : TextState) : List (Text × Mode) → TextState × List Text
  | [] => (st, [])
  | (inc, m) :: rest =>
    let r1 := processIncoming st inc m
    let r2 := processAll r1.1 rest
    (r2.1, r1.2 ++ r2.2)

example :
    (processAll ⟨[], 0⟩
      [("No".toList, .delta), ("No, I do not".toList, .delta),
       ("No, I do not".toList, .delta), ("No, I do not see it".toList, .delta)]).2
    = ["No".toList, ", I do not".toList, " see it".toList] := by decide

example :
    (processAll ⟨[], 0⟩
      [("aba".toList, .cumulative), ("ab".toList, .cumulative)]).1
    = ⟨"aba\n\nab".toList, 5⟩ := by decide

/-! ## The event-level client model -/

inductive Source where
  | chat
  | agent
deriving DecidableEq

/-- JavaScript truthiness of a nullable string field
(`null`/`undefined` and `''` are falsy). -/
def optTruthy : Option String → Bool
  | none => false
  | some s => !s.isEmpty

/-- The per-response stream state of `OpenClawClient` (the fields cleared
by `resetStreamState`, plus the session pin `primarySessionKey`). -/
structure ClientState where
  activeStreamSource : Option Source
  assistantStreamText : Text
  assistantStreamMode : Option Mode
  currentBlockOffset : Nat
  streamStarted : Bool
  activeRunId : Option String
  activeSessionKey : Option String
  primarySessionKey : Option String
deriving DecidableEq

def initialState : ClientState :=
  ⟨none, [], none, 0, false, none, none, none⟩

/-- `resetStreamState` from `client.ts`: clears every stream field,
including the primary-session pin. -/
def resetStreamState (_s : ClientState) : ClientState := initialState

/-- Signals published on the event bus by the reconciliation engine.  The
`message` identifier is `none` when the source falls back to a freshly
generated `msg-${Date.now()}` identifier.  The tool payload details
(name, phase, result) do not bear on any claim and are elided. -/
inductive Emit where
  | streamStart (sessionKey : Option String)
  | streamChunk (text : Text) (sessionKey : Option String)
  | streamEnd (sessionKey : Option String)
  | streamSessionKey (runId : Option String) (sessionKey : String)
  | message (id : Option String) (role : String) (content : Text) (sessionKey : Option String)
  | subagentDetected (sessionKey : String)
  | toolCall (sessionKey : Option String)
  | agentStatus
  | passthrough (name : String)
deriving DecidableEq

/-- The `payload.message` fields read by the chat `final` branch; `content`
is the text extracted by `extractTextFromContent`. -/
structure MsgInfo where
  id : Option String
  role : String
  content : Text
deriving DecidableEq

/-- Inbound push events as classified by `handleNotification`:
`chat` events are discriminated by `state` (`delta`/`final`), `agent`
events by `stream` (`assistant`/`tool`/`lifecycle`).  Text fields carry
the extracted/stripped strings (`rawText`, `data.text`, `data.delta`);
an absent field is `none`. -/
inductive Event where
  | chatDelta (sessionKey runId : Option String) (rawText : Text)
  | chatFinal (sessionKey runId : Option String) (message : Option MsgInfo)
  | presence
  | agentAssistant (sessionKey runId : Option String)
      (canonicalText deltaText : Option Text)
  | agentTool (sessionKey runId : Option String)
  | agentLifecycle (sessionKey runId : Option String) (phase state : Option String)
deriving DecidableEq

def eventSessionKey : Event → Option String
  | .chatDelta sk _ _ => sk
  | .chatFinal sk _ _ => sk
  | .presence => none
  | .agentAssistant sk _ _ _ => sk
  | .agentTool sk _ => sk
  | .agentLifecycle sk _ _ _ => sk

/-- The `chat`/`agent` source an event is declared under (`presence` has
none). -/
def eventSource : Event → Option Source
  | .chatDelta .. => some .chat
  | .chatFinal .. => some .chat
  | .presence => none
  | .agentAssistant .. => some .agent
  | .agentTool .. => some .agent
  | .agentLifecycle .. => some .agent

/-- The run-identifier half of `maybeUpdateRunAndSession`:
`if (typeof runId === 'string' && !this.activeRunId) this.activeRunId = runId`. -/
def maybeUpdateRun (s : ClientState) (runId : Option String) : ClientState :=
  match runId with
  | some r => if !optTruthy s.activeRunId then { s with activeRunId := some r } else s
  | none => s

/-- `maybeUpdateRunAndSession` from `client.ts`.  No reset on runId
mismatch: the first truthy run identifier is kept; a new truthy session
key is adopted and announced via `streamSessionKey`. -/
def maybeUpdateRunAndSession (s : ClientState) (runId sessionKey : Option String) :
    ClientState × List Emit :=
  let s1 := maybeUpdateRun s runId
  match sessionKey with
  | some sk =>
    if !sk.isEmpty && s1.activeSessionKey != some sk then
      ({ s1 with activeSessionKey := some sk }, [.streamSessionKey runId sk])
    else (s1, [])
  | none => (s1, [])

/-- `ensureStream` from `client.ts`: first qualifying event claims the
stream for its source; fires `streamStart` once. -/
def ensureStream (s : ClientState) (source : Source) (modeHint : Mode)
    (runId : Option String) : ClientState × List Emit :=
  let r1 := maybeUpdateRunAndSession s runId none
  let s1 := r1.1
  let s2 :=
    if s1.activeStreamSource = none then { s1 with activeStreamSource := some source }
    else s1
  if s2.activeStreamSource ≠ some source then (s2, r1.2)
  else
    let s3 :=
      if s2.assistantStreamMode = none then { s2 with assistantStreamMode := some modeHint }
      else s2
    if !s3.streamStarted then
      ({ s3 with streamStarted := true }, r1.2 ++ [.streamStart s3.activeSessionKey])
    else (s3, r1.2)

/-- State-level `applyStreamText`: runs the pure text step and attaches
the current `activeSessionKey` to the emitted chunk. -/
def applyStreamText (s : ClientState) (nextText : Text) : ClientState × List Emit :=
  let a := applyStreamTextPure s.assistantStreamText nextText
  ({ s with assistantStreamText := a.1 },
   a.2.map (fun c => .streamChunk c s.activeSessionKey))

/-- State-level `mergeIncoming`: runs the pure merge and stores the
updated `currentBlockOffset`. -/
def mergeIncomingState (s : ClientState) (incoming : Text) (modeHint : Mode) :
    Text × ClientState :=
  let m := mergeIncoming s.assistantStreamText s.currentBlockOffset incoming modeHint
  (m.1, { s with currentBlockOffset := m.2 })

/-- `shouldProcessEvent` from `client.ts`: with no (truthy) pin, or no
(truthy) event session key, process; otherwise only the pinned session. -/
def shouldProcessEvent (s : ClientState) (sessionKey : Option String) : Bool :=
  if !optTruthy s.primarySessionKey then true
  else if !optTruthy sessionKey then true
  else sessionKey == s.primarySessionKey

/-- `phase === 'end' || phase === 'error' || state === 'complete' || state === 'error'`. -/
def lifecycleIsEnd (phase state : Option String) : Bool :=
  phase == some "end" || phase == some "error" ||
    state == some "complete" || state == some "error"

/-- Identifier resolution of the chat `final` `message` emit:
`message.id` if truthy, else `runId` if truthy, else a fresh
`msg-${Date.now()}` identifier (modelled as `none`). -/
def resolveMessageId (id runId : Option String) : Option String :=
  if optTruthy id then id else if optTruthy runId then runId else none

/-- The subagent-detection check at the top of `handleNotification`:
`if (this.primarySessionKey && eventSessionKey && eventSessionKey !== this.primarySessionKey)`. -/
def detectEmits (s : ClientState) (esk : Option String) : List Emit :=
  match s.primarySessionKey, esk with
  | some pin, some sk =>
    if !pin.isEmpty && !sk.isEmpty && sk != pin then [.subagentDetected sk] else []
  | _, _ => []

/-- The `chat` / state `delta` branch of `handleNotification` (after the
session gate and subagent detection). -/
def handleChatDelta (s : ClientState) (esk runId : Option String) (rawText : Text) :
    ClientState × List Emit :=
  let r1 := maybeUpdateRunAndSession s runId esk
  let r2 := ensureStream r1.1 .chat .cumulative runId
  if r2.1.activeStreamSource ≠ some .chat then
    -- Another stream type already claimed this response.
    (r2.1, r1.2 ++ r2.2)
  else if !rawText.isEmpty && !isHeartbeatContent rawText then
    let m := mergeIncomingState r2.1 rawText .cumulative
    let a := applyStreamText m.2 m.1
    (a.1, r1.2 ++ r2.2 ++ a.2)
  else (r2.1, r1.2 ++ r2.2)

/-- The `chat` / state `final` branch of `handleNotification`. -/
def handleChatFinal (s : ClientState) (esk runId : Option String)
    (message : Option MsgInfo) : ClientState × List Emit :=
  let r1 := maybeUpdateRunAndSession s runId esk
  -- If the agent stream handled this response, lifecycle:end already
  -- emitted streamEnd and reset state. Skip to avoid duplicates.
  if r1.1.activeStreamSource = some .agent then (r1.1, r1.2)
  else
    let msgEmits : List Emit :=
      match message with
      | some m =>
        if !m.content.isEmpty && !isHeartbeatContent m.content then
          [.message (resolveMessageId m.id runId) m.role m.content esk]
        else []
      | none => []
    let endEmits : List Emit := if r1.1.streamStarted then [.streamEnd esk] else []
    (resetStreamState r1.1, r1.2 ++ msgEmits ++ endEmits)

/-- The `agent` / stream `assistant` branch of `handleNotification`.
Canonical cumulative `data.text` is preferred; the `data.delta` field is
used only when no (truthy, non-heartbeat) canonical text is present. -/
def handleAgentAssistant (s : ClientState) (esk runId : Option String)
    (canonicalText deltaText : Option Text) : ClientState × List Emit :=
  let r1 := maybeUpdateRunAndSession s runId esk
  let hasCanonicalText := canonicalText.isSome
  let r2 := ensureStream r1.1 .agent (if hasCanonicalText then .cumulative else .delta) runId
  if r2.1.activeStreamSource ≠ some .agent then
    -- Another stream type already claimed this response.
    (r2.1, r1.2 ++ r2.2)
  else
    let canonical := canonicalText.getD []
    if !canonical.isEmpty && !isHeartbeatContent canonical then
      let m := mergeIncomingState r2.1 canonical .cumulative
      let a := applyStreamText m.2 m.1
      (a.1, r1.2 ++ r2.2 ++ a.2)
    else
      let d := deltaText.getD []
      if !d.isEmpty && !isHeartbeatContent d then
        let m := mergeIncomingState r2.1 d .delta
        let a := applyStreamText m.2 m.1
        (a.1, r1.2 ++ r2.2 ++ a.2)
      else (r2.1, r1.2 ++ r2.2)

/-- The `agent` / stream `tool` branch of `handleNotification`. -/
def handleAgentTool (s : ClientState) (esk runId : Option String) :
    ClientState × List Emit :=
  let r1 := maybeUpdateRunAndSession s runId esk
  if !r1.1.streamStarted then
    ({ r1.1 with streamStarted := true }, r1.2 ++ [.streamStart esk, .toolCall esk])
  else (r1.1, r1.2 ++ [.toolCall esk])

/-- The `agent` / stream `lifecycle` branch of `handleNotification`. -/
def handleAgentLifecycle (s : ClientState) (esk runId : Option String)
    (phase state : Option String) : ClientState × List Emit :=
  let r1 := maybeUpdateRunAndSession s runId esk
  if lifecycleIsEnd phase state then
    if r1.1.activeStreamSource = some .agent && r1.1.streamStarted then
      (resetStreamState r1.1, r1.2 ++ [.streamEnd esk])
    else (r1.1, r1.2)
  else (r1.1, r1.2)

/-- `handleNotification` from `client.ts`: subagent detection, the
session-pin gate for `chat`/`agent` events, then the per-branch handling. -/
def handleNotification (s : ClientState) (e : Event) : ClientState × List Emit :=
  let esk := eventSessionKey e
  let detect := detectEmits s esk
  match e with
  | .chatDelta _ runId rawText =>
    if !shouldProcessEvent s esk then (s, detect)
    else
      let r := handleChatDelta s esk runId rawText
      (r.1, detect ++ r.2)
  | .chatFinal _ runId message =>
    if !shouldProcessEvent s esk then (s, detect)
    else
      let r := handleChatFinal s esk runId message
      (r.1, detect ++ r.2)
  | .presence => (s, detect ++ [.agentStatus])
  | .agentAssistant _ runId canonicalText deltaText =>
    if !shouldProcessEvent s esk then (s, detect)
    else
      let r := handleAgentAssistant s esk runId canonicalText deltaText
      (r.1, detect ++ r.2)
  | .agentTool _ runId =>
    if !shouldProcessEvent s esk then (s, detect)
    else
      let r := handleAgentTool s esk runId
      (r.1, detect ++ r.2)
  | .agentLifecycle _ runId phase state =>
    if !shouldProcessEvent s esk then (s, detect)
    else
      let r := handleAgentLifecycle s esk runId phase state
      (r.1, detect ++ r.2)

/-- Process a sequence of events, collecting all published signals. -/
def runEvents (s : ClientState) : List Event → ClientState × List Emit
  | [] => (s, [])
  | e :: rest =>
    let r1 := handleNotification s e
    let r2 := runEvents r1.1 rest
    (r2.1, r1.2 ++ r2.2)

/-- The chunk texts among a list of emitted signals. -/
def chunkText? : Emit → Option Text
  | .streamChunk t _ => some t
  | _ => none

def chunkTexts (l : List Emit) : List Text := l.filterMap chunkText?

/-- Lifecycle/chunk signals of the outward stream (start, chunk, end). -/
def isStreamSignal : Emit → Bool
  | .streamStart _ => true
  | .streamChunk _ _ => true
  | .streamEnd _ => true
  | _ => false

def isStreamEndEmit : Emit → Bool
  | .streamEnd _ => true
  | _ => false

def isSubagentEmit : Emit → Bool
  | .subagentDetected _ => true
  | _ => false

/-! ## The request/response correlator and the receive path -/

/-- The connection-level state read by the receive path: the
`authenticated` flag, the monotone `requestId` counter and the
`pendingRequests` map.  A pending entry is `(id, method)` — the method
name stands for the rejection callback's captured context (it appears in
the timeout message). -/
structure CorrelatorState where
  authenticated : Bool
  requestId : Nat
  pending : List (String × String)
deriving DecidableEq

/-- The fields of a `res` frame read by `handleMessage`: `id`, `ok`, a
`payload.type === 'hello-ok'` flag, and `error.message`. -/
structure ResFrame where
  id : String
  ok : Bool
  helloOk : Bool
  errorMsg : Option String
deriving DecidableEq

/-- The outcomes `handleMessage` can deliver for a `res` frame: settle the
connect promise, or settle one pending call. -/
inductive ResAction where
  | connectResolved
  | connectRejected (msg : String)
  | resolved (id : String)
  | rejected (id : String) (msg : String)
deriving DecidableEq

/-- The `res` branch of `handleMessage` in `client.ts`.  The `hello-ok`
special case is checked first (and does not consume the pending entry);
then a matching pending entry is settled and removed; a non-ok response
while unauthenticated rejects the connect promise; anything else is a
no-op. -/
def handleRes (st : CorrelatorState) (f : ResFrame) : CorrelatorState × List ResAction :=
  if !st.authenticated && f.ok && f.helloOk then
    ({ st with authenticated := true }, [.connectResolved])
  else
    match st.pending.find? (fun p => p.1 == f.id) with
    | some _ =>
      ({ st with pending := st.pending.filter (fun p => !(p.1 == f.id)) },
       [if f.ok then .resolved f.id else .rejected f.id (f.errorMsg.getD "Unknown error")])
    | none =>
      if !f.ok && !st.authenticated then
        (st, [.connectRejected (f.errorMsg.getD "Handshake failed")])
      else (st, [])

/-- The timeout callback registered by `call`: if the entry is still
pending when the 30-second timer fires, remove it and reject with the
timeout message; otherwise do nothing.  (`Map.delete` on the unique key is
the filter below.) -/
def timeoutFire (st : CorrelatorState) (id method : String) :
    CorrelatorState × Option String :=
  if st.pending.any (fun p => p.1 == id) then
    ({ st with pending := st.pending.filter (fun p => !(p.1 == id)) },
     some ("Request timeout: " ++ method))
  else (st, none)

/-- A decoded inbound frame, as discriminated by `handleMessage`:
the `connect.challenge` event, any other event, a `res` frame, or a frame
whose `type` tag matches nothing (which falls through the handler). -/
inductive Frame where
  | challenge
  | event (e : Event)
  | res (f : ResFrame)
  | unknown
deriving DecidableEq

/-- Outbound effects of the receive path. -/
inductive OutAction where
  | sendConnect
  | notify (em : Emit)
  | respond (a : ResAction)
deriving DecidableEq

/-- `handleMessage` from `client.ts` over the decoded frame.  `none`
models a frame on which `JSON.parse` threw: the `catch` swallows it and
nothing happens.  The challenge event triggers `performHandshake`, which
allocates a request id and sends the connect frame. -/
def handleMessage (cs : ClientState) (st : CorrelatorState) (parsed : Option Frame) :
    (ClientState × CorrelatorState) × List OutAction :=
  match parsed with
  | none => ((cs, st), [])
  | some .challenge =>
    ((cs, { st with requestId := st.requestId + 1 }), [.sendConnect])
  | some (.event e) =>
    let r := handleNotification cs e
    ((r.1, st), r.2.map .notify)
  | some (.res f) =>
    let r := handleRes st f
    ((cs, r.1), r.2.map .respond)
  | some .unknown => ((cs, st), [])

/-- The event-bus dispatch of `emit` in `client.ts`: every registered
handler is invoked in order inside its own `try`/`catch`.  A handler is
modelled as a function returning its observable effect or an exception;
the dispatch returns the effects of the handlers that did not throw. -/
def runHandlers {α ε σ : Type} (handlers : List (α → Except ε σ)) (arg : α) : List σ :=
  handlers.filterMap (fun h => (h arg).toOption)

/-! ## Text-pipeline lemmas -/

lemma overlapLoop_eq_drop (p i : Text) (n : Nat) :
    overlapLoop p i n = p ++ i.drop (overlapAmount p i n) := by
  induction n with
  | zero => simp [overlapLoop, overlapAmount]
  | succ k ih =>
    simp only [overlapLoop, overlapAmount]
    split <;> simp [ih]

lemma overlapAmount_le (p i : Text) (n : Nat) : overlapAmount p i n ≤ n := by
  induction n with
  | zero => simp [overlapAmount]
  | succ k ih =>
    simp only [overlapAmount]
    split
    · exact le_refl _
    · exact le_trans ih (Nat.le_succ k)

lemma overlapAmount_suffix (p i : Text) (n : Nat) :
    (i.take (overlapAmount p i n)) <:+ p := by
  induction n with
  | zero => simp [overlapAmount, List.nil_suffix]
  | succ k ih =>
    simp only [overlapAmount]
    split
    · next h => exact List.isSuffixOf_iff_suffix.mp h
    · exact ih

lemma overlapAmount_max (p i : Text) (n j : Nat) (hj : j ≤ n)
    (h : (i.take j) <:+ p) : j ≤ overlapAmount p i n := by
  induction n with
  | zero => simp only [overlapAmount]; omega
  | succ k ih =>
    simp only [overlapAmount]
    split
    · exact hj
    · next hc =>
      rcases Nat.lt_or_ge j (k + 1) with hlt | hge
      · exact ih (Nat.lt_succ_iff.mp hlt)
      · exfalso
        have hjk : j = k + 1 := le_antisymm hj hge
        exact hc (List.isSuffixOf_iff_suffix.mpr (hjk ▸ h))

lemma mergeIncoming_extends (prev : Text) (off : Nat) (inc : Text) (m : Mode) :
    prev <+: (mergeIncoming prev off inc m).1 := by
  cases m with
  | cumulative =>
    simp only [mergeIncoming]
    split
    · next h => simp [List.isEmpty_iff.mp h]
    · split
      · exact List.prefix_refl _
      · split
        · next h => exact List.isPrefixOf_iff_prefix.mp h
        · split
          · next h =>
            obtain ⟨-, hp⟩ := Bool.and_eq_true _ _ ▸ h
            obtain ⟨r, hr⟩ := List.isPrefixOf_iff_prefix.mp hp
            refine ⟨r, ?_⟩
            simp only
            rw [← hr, ← List.append_assoc, List.take_append_drop]
          · simp [List.append_assoc, List.prefix_append prev (separator ++ inc)]
  | delta =>
    simp only [mergeIncoming]
    split
    · next h =>
      obtain ⟨-, hp⟩ := Bool.and_eq_true _ _ ▸ h
      exact List.isPrefixOf_iff_prefix.mp hp
    · split
      · exact List.prefix_refl _
      · split
        · simp only [overlapLoop_eq_drop]
          exact List.prefix_append _ _
        · exact List.prefix_append _ _

lemma applyStreamTextPure_of_extends (prev next : Text) (h : prev <+: next) :
    (applyStreamTextPure prev next).1 = next ∧
      next = prev ++ ((applyStreamTextPure prev next).2).flatten := by
  simp only [applyStreamTextPure]
  split
  · next h1 =>
    have hn : next = [] := List.isEmpty_iff.mp h1
    have hp : prev = [] := List.prefix_nil.mp (hn ▸ h)
    simp [hn, hp]
  · split
    · next h1 h2 => simp [beq_iff_eq.mp h2]
    · split
      · next h1 h2 h3 => simp [List.isEmpty_iff.mp h3]
      · split
        · next h1 h2 h3 h4 =>
          have hd : next.drop prev.length ≠ [] := by
            intro he
            have hpn := List.prefix_iff_eq_append.mp h
            rw [he, List.append_nil] at hpn
            exact h2 (by simp [hpn])
          constructor
          · simp
          · simp only [List.isEmpty_eq_false.mpr hd, if_false, List.flatten,
              List.append_nil]
            exact (List.prefix_iff_eq_append.mp h).symm
        · next h1 h2 h3 h4 =>
          exact absurd (List.isPrefixOf_iff_prefix.mpr h) (by simpa using h4)

lemma processIncoming_text (st : TextState) (inc : Text) (m : Mode) :
    (processIncoming st inc m).1.text
      = st.text ++ ((processIncoming st inc m).2).flatten := by
  have hpre := mergeIncoming_extends st.text st.blockOffset inc m
  have := applyStreamTextPure_of_extends st.text
    (mergeIncoming st.text st.blockOffset inc m).1 hpre
  simp only [processIncoming]
  rw [this.1, ← this.2]

lemma processAll_text (steps : List (Text × Mode)) (st : TextState) :
    (processAll st steps).1.text = st.text ++ ((processAll st steps).2).flatten := by
  induction steps generalizing st with
  | nil => simp [processAll]
  | cons p rest ih =>
    simp only [processAll, List.flatten_append]
    rw [ih, processIncoming_text, List.append_assoc]

lemma mergeIncoming_delta_of_extends (prev : Text) (off : Nat) (inc : Text)
    (h : prev <+: inc) :
    mergeIncoming prev off inc .delta = (inc, off) := by
  simp only [mergeIncoming]
  rcases eq_or_ne prev [] with hp | hp
  · subst hp
    simp
  · simp [List.isEmpty_eq_false.mpr hp, List.isPrefixOf_iff_prefix.mpr h]

lemma processAll_delta_chain (ts : List Text) (st : TextState)
    (h : List.Chain' (· <+: ·) (st.text :: ts)) :
    (processAll st (ts.map (fun t => (t, Mode.delta)))).1.text = ts.getLastD st.text := by
  induction ts generalizing st with
  | nil => simp [processAll]
  | cons t rest ih =>
    have h1 : st.text <+: t := (List.chain'_cons.mp h).1
    have h2 : List.Chain' (· <+: ·) (t :: rest) := (List.chain'_cons.mp h).2
    have hstep : (processIncoming st t .delta).1 = ⟨t, st.blockOffset⟩ := by
      simp only [processIncoming, mergeIncoming_delta_of_extends st.text st.blockOffset t h1]
      have := applyStreamTextPure_of_extends st.text t h1
      simp [this.1]
    simp only [List.map_cons, processAll, hstep]
    rw [ih ⟨t, st.blockOffset⟩ (by simpa using h2), List.getLastD_cons]

lemma applyStreamTextPure_prefix_ne (prev next : Text) (h : prev <+: next)
    (hne : next ≠ prev) :
    applyStreamTextPure prev next = (next, [next.drop prev.length]) := by
  simp only [applyStreamTextPure]
  split
  · next h1 =>
    have hn := List.isEmpty_iff.mp h1
    have hp := List.prefix_nil.mp (hn ▸ h)
    exact absurd (hn.trans hp.symm) hne
  · split
    · next h1 h2 => exact absurd (beq_iff_eq.mp h2) hne
    · split
      · next h1 h2 h3 => simp [List.isEmpty_iff.mp h3]
      · split
        · next h1 h2 h3 h4 =>
          have hd : next.drop prev.length ≠ [] := by
            intro he
            have hpn := List.prefix_iff_eq_append.mp h
            rw [he, List.append_nil] at hpn
            exact hne hpn.symm
          simp [List.isEmpty_eq_false.mpr hd]
        · next h1 h2 h3 h4 =>
          exact absurd (List.isPrefixOf_iff_prefix.mpr h) (by simpa using h4)

lemma applyStreamTextPure_self (prev : Text) :
    applyStreamTextPure prev prev = (prev, []) := by
  simp only [applyStreamTextPure]
  split
  · rfl
  · simp

/-- Delta convention, prefix-extension case: only the extension is
emitted. -/
lemma processDelta_extension (held : Text) (off : Nat) (inc : Text)
    (h : held <+: inc) (hne : inc ≠ held) :
    processIncoming ⟨held, off⟩ inc .delta = (⟨inc, off⟩, [inc.drop held.length]) := by
  simp only [processIncoming, mergeIncoming_delta_of_extends held off inc h,
    applyStreamTextPure_prefix_ne held inc h hne]

/-- Delta convention, suffix-contained case: nothing is emitted and the
held text is unchanged. -/
lemma processDelta_suffix (held : Text) (off : Nat) (inc : Text)
    (h : inc <:+ held) :
    processIncoming ⟨held, off⟩ inc .delta = (⟨held, off⟩, []) := by
  rcases eq_or_ne held [] with hh | hh
  · subst hh
    have hi : inc = [] := List.suffix_nil.mp h
    subst hi
    simp [processIncoming, mergeIncoming, applyStreamTextPure]
  · rcases eq_or_ne inc held with he | he
    · subst he
      simp only [processIncoming, mergeIncoming_delta_of_extends inc off inc
        (List.prefix_refl inc), applyStreamTextPure_self]
    · have hnp : ¬ held.isPrefixOf inc = true := by
        intro hp
        have hp' := List.isPrefixOf_iff_prefix.mp hp
        exact he (List.IsPrefix.eq_of_length hp'
          (le_antisymm hp'.length_le h.length_le)).symm
      have hmerge : mergeIncoming held off inc .delta = (held, off) := by
        simp only [mergeIncoming, List.isEmpty_eq_false.mpr hh, hnp,
          List.isSuffixOf_iff_suffix.mpr h]
        simp
      simp only [processIncoming, hmerge, applyStreamTextPure_self]

/-- Delta convention, partial-overlap case: the merged text is the held
text extended by the part of the incoming text past the loop's overlap. -/
lemma processDelta_overlap (held : Text) (off : Nat) (inc : Text)
    (h1 : ¬ held <+: inc) (h2 : ¬ inc <:+ held) :
    processIncoming ⟨held, off⟩ inc .delta
      = (⟨held ++ inc.drop (overlapAmount held inc (min held.length inc.length)), off⟩,
         [inc.drop (overlapAmount held inc (min held.length inc.length))]) := by
  have hh : held ≠ [] := fun he => h1 (he ▸ List.nil_prefix)
  have hd : inc.drop (overlapAmount held inc (min held.length inc.length)) ≠ [] := by
    intro he
    have hk := List.drop_eq_nil_iff.mp he
    have htk : inc.take (overlapAmount held inc (min held.length inc.length)) = inc :=
      List.take_of_length_le hk
    exact h2 (htk ▸ overlapAmount_suffix held inc (min held.length inc.length))
  have hmerge : mergeIncoming held off inc .delta
      = (overlapLoop held inc (min held.length inc.length), off) := by
    simp only [mergeIncoming, List.isEmpty_eq_false.mpr hh,
      (by simpa using h1 : ¬ held.isPrefixOf inc = true),
      (by simpa using h2 : ¬ inc.isSuffixOf held = true)]
    simp
  have happly : applyStreamTextPure held (overlapLoop held inc (min held.length inc.length))
      = (held ++ inc.drop (overlapAmount held inc (min held.length inc.length)),
         [inc.drop (overlapAmount held inc (min held.length inc.length))]) := by
    rw [overlapLoop_eq_drop]
    rw [applyStreamTextPure_prefix_ne held _ (List.prefix_append _ _)
      (by simpa using hd)]
    simp
  simp only [processIncoming, hmerge, happly]

/-- Cumulative convention, empty-held case: the incoming text is adopted
wholesale. -/
lemma processCumulative_empty (off : Nat) (inc : Text) :
    processIncoming ⟨[], off⟩ inc .cumulative
      = (⟨inc, off⟩, if inc = [] then [] else [inc]) := by
  rcases eq_or_ne inc [] with hi | hi
  · subst hi
    simp [processIncoming, mergeIncoming, applyStreamTextPure]
  · have : applyStreamTextPure [] inc = (inc, [inc]) := by
      have := applyStreamTextPure_prefix_ne [] inc List.nil_prefix hi
      simpa using this
    simp [processIncoming, mergeIncoming, this, hi]

/-- Cumulative convention, whole-text extension case (the branch the
source checks first): the suffix relative to the whole accumulated text
is emitted. -/
lemma processCumulative_whole (held : Text) (off : Nat) (inc : Text)
    (hh : held ≠ []) (h : held <+: inc) :
    processIncoming ⟨held, off⟩ inc .cumulative
      = (⟨inc, off⟩, if inc = held then [] else [inc.drop held.length]) := by
  rcases eq_or_ne inc held with he | he
  · subst he
    have hmerge : mergeIncoming inc off inc .cumulative = (inc, off) := by
      simp [mergeIncoming, List.isEmpty_eq_false.mpr hh]
    simp [processIncoming, hmerge, applyStreamTextPure_self]
  · have hmerge : mergeIncoming held off inc .cumulative = (inc, off) := by
      simp only [mergeIncoming, List.isEmpty_eq_false.mpr hh,
        (by simpa using he : ¬ (inc == held) = true),
        List.isPrefixOf_iff_prefix.mpr h]
      simp
    simp [processIncoming, hmerge, applyStreamTextPure_prefix_ne held inc h he, he]

/-- Cumulative convention, current-block extension case (checked only
after the whole-text check fails): the suffix relative to the current
block is emitted and the held record is rewritten to the pre-boundary
text plus the incoming text. -/
lemma processCumulative_block (held : Text) (off : Nat) (inc : Text)
    (hh : held ≠ []) (hnw : ¬ held <+: inc)
    (hb : held.drop off ≠ []) (hpb : held.drop off <+: inc) :
    processIncoming ⟨held, off⟩ inc .cumulative
      = (⟨held.take off ++ inc, off⟩,
         if inc = held.drop off then [] else [inc.drop (held.drop off).length]) := by
  have hne : inc ≠ held := fun he => hnw (he ▸ List.prefix_refl held)
  have hmerge : mergeIncoming held off inc .cumulative = (held.take off ++ inc, off) := by
    simp only [mergeIncoming, List.isEmpty_eq_false.mpr hh,
      (by simpa using hne : ¬ (inc == held) = true),
      (by simpa using hnw : ¬ held.isPrefixOf inc = true),
      List.isEmpty_eq_false.mpr hb, List.isPrefixOf_iff_prefix.mpr hpb]
    simp
  obtain ⟨r, hr⟩ := hpb
  have hsplit : held.take off ++ inc = held ++ r := by
    rw [← hr, ← List.append_assoc, List.take_append_drop]
  rcases eq_or_ne inc (held.drop off) with he | he
  · have hr0 : r = [] := by
      have := hr
      rw [← he] at this
      simpa using this.symm
    have htext : held.take off ++ inc = held := by
      rw [hsplit, hr0, List.append_nil]
    simp only [processIncoming, hmerge, htext, applyStreamTextPure_self]
    simp [he]
  · have hrne : r ≠ [] := by
      intro hr0
      rw [hr0, List.append_nil] at hr
      exact he hr.symm
    have hprefix : held <+: held.take off ++ inc := hsplit ▸ List.prefix_append held r
    have hne2 : held.take off ++ inc ≠ held := by
      rw [hsplit]
      intro hc
      exact hrne (by simpa using congrArg List.length hc)
    have hdrop : (held.take off ++ inc).drop held.length = r := by
      rw [hsplit, List.drop_left]
    have hr' : inc.drop (held.drop off).length = r := by
      rw [← hr, List.drop_left]
    simp only [processIncoming, hmerge,
      applyStreamTextPure_prefix_ne held _ hprefix hne2, hdrop, he, if_false, hr']

/-- Cumulative convention, new-block case: the block separator plus the
whole incoming text is emitted, the block offset is set to where the new
block begins, and the prior accumulated text is preserved as a prefix. -/
lemma processCumulative_newBlock (held : Text) (off : Nat) (inc : Text)
    (hh : held ≠ []) (hnw : ¬ held <+: inc)
    (hnb : ¬ (held.drop off ≠ [] ∧ held.drop off <+: inc)) :
    processIncoming ⟨held, off⟩ inc .cumulative
      = (⟨held ++ separator ++ inc, held.length + separator.length⟩,
         [separator ++ inc]) := by
  have hne : inc ≠ held := fun he => hnw (he ▸ List.prefix_refl held)
  have hcond : ¬ ((!(held.drop off).isEmpty) && (held.drop off).isPrefixOf inc) = true := by
    intro hc
    obtain ⟨h1, h2⟩ := Bool.and_eq_true _ _ ▸ hc
    exact hnb ⟨by simpa using h1, List.isPrefixOf_iff_prefix.mp h2⟩
  have hmerge : mergeIncoming held off inc .cumulative
      = (held ++ separator ++ inc, held.length + separator.length) := by
    simp only [mergeIncoming, List.isEmpty_eq_false.mpr hh,
      (by simpa using hne : ¬ (inc == held) = true),
      (by simpa using hnw : ¬ held.isPrefixOf inc = true), hcond]
    simp
  have hprefix : held <+: held ++ separator ++ inc := by
    rw [List.append_assoc]
    exact List.prefix_append held (separator ++ inc)
  have hne2 : held ++ separator ++ inc ≠ held := by
    intro hc
    have := congrArg List.length hc
    simp [separator] at this
  have hdrop : (held ++ separator ++ inc).drop held.length = separator ++ inc := by
    rw [List.append_assoc, List.drop_left]
  simp only [processIncoming, hmerge,
    applyStreamTextPure_prefix_ne held _ hprefix hne2, hdrop]

/-! ## Event-level component lemmas -/

lemma maybeUpdateRun_shape (s : ClientState) (r : Option String) :
    ∃ rid, maybeUpdateRun s r = { s with activeRunId := rid } := by
  rcases r with _ | rv
  · exact ⟨s.activeRunId, rfl⟩
  · dsimp only [maybeUpdateRun]
    split
    · exact ⟨some rv, rfl⟩
    · exact ⟨s.activeRunId, rfl⟩

lemma maybeUpdate_shape (s : ClientState) (r k : Option String) :
    ∃ rid ask, (maybeUpdateRunAndSession s r k).1
      = { s with activeRunId := rid, activeSessionKey := ask } := by
  obtain ⟨rid, hr⟩ := maybeUpdateRun_shape s r
  rcases k with _ | kv <;> dsimp only [maybeUpdateRunAndSession]
  · exact ⟨rid, s.activeSessionKey, by rw [hr]⟩
  · split
    · exact ⟨rid, some kv, by rw [hr]⟩
    · exact ⟨rid, s.activeSessionKey, by rw [hr]⟩

@[simp] lemma maybeUpdate_source (s : ClientState) (r k : Option String) :
    (maybeUpdateRunAndSession s r k).1.activeStreamSource = s.activeStreamSource := by
  obtain ⟨rid, ask, h⟩ := maybeUpdate_shape s r k
  rw [h]

@[simp] lemma maybeUpdate_text (s : ClientState) (r k : Option String) :
    (maybeUpdateRunAndSession s r k).1.assistantStreamText = s.assistantStreamText := by
  obtain ⟨rid, ask, h⟩ := maybeUpdate_shape s r k
  rw [h]

@[simp] lemma maybeUpdate_mode (s : ClientState) (r k : Option String) :
    (maybeUpdateRunAndSession s r k).1.assistantStreamMode = s.assistantStreamMode := by
  obtain ⟨rid, ask, h⟩ := maybeUpdate_shape s r k
  rw [h]

@[simp] lemma maybeUpdate_offset (s : ClientState) (r k : Option String) :
    (maybeUpdateRunAndSession s r k).1.currentBlockOffset = s.currentBlockOffset := by
  obtain ⟨rid, ask, h⟩ := maybeUpdate_shape s r k
  rw [h]

@[simp] lemma maybeUpdate_started (s : ClientState) (r k : Option String) :
    (maybeUpdateRunAndSession s r k).1.streamStarted = s.streamStarted := by
  obtain ⟨rid, ask, h⟩ := maybeUpdate_shape s r k
  rw [h]

@[simp] lemma maybeUpdate_primary (s : ClientState) (r k : Option String) :
    (maybeUpdateRunAndSession s r k).1.primarySessionKey = s.primarySessionKey := by
  obtain ⟨rid, ask, h⟩ := maybeUpdate_shape s r k
  rw [h]


@[simp] lemma maybeUpdateRun_source (s : ClientState) (r : Option String) :
    (maybeUpdateRun s r).activeStreamSource = s.activeStreamSource := by
  obtain ⟨rid, h⟩ := maybeUpdateRun_shape s r
  rw [h]

@[simp] lemma maybeUpdateRun_text (s : ClientState) (r : Option String) :
    (maybeUpdateRun s r).assistantStreamText = s.assistantStreamText := by
  obtain ⟨rid, h⟩ := maybeUpdateRun_shape s r
  rw [h]

@[simp] lemma maybeUpdateRun_mode (s : ClientState) (r : Option String) :
    (maybeUpdateRun s r).assistantStreamMode = s.assistantStreamMode := by
  obtain ⟨rid, h⟩ := maybeUpdateRun_shape s r
  rw [h]

@[simp] lemma maybeUpdateRun_offset (s : ClientState) (r : Option String) :
    (maybeUpdateRun s r).currentBlockOffset = s.currentBlockOffset := by
  obtain ⟨rid, h⟩ := maybeUpdateRun_shape s r
  rw [h]

@[simp] lemma maybeUpdateRun_started (s : ClientState) (r : Option String) :
    (maybeUpdateRun s r).streamStarted = s.streamStarted := by
  obtain ⟨rid, h⟩ := maybeUpdateRun_shape s r
  rw [h]

@[simp] lemma maybeUpdateRun_sessionKey (s : ClientState) (r : Option String) :
    (maybeUpdateRun s r).activeSessionKey = s.activeSessionKey := by
  obtain ⟨rid, h⟩ := maybeUpdateRun_shape s r
  rw [h]

@[simp] lemma maybeUpdateRun_primary (s : ClientState) (r : Option String) :
    (maybeUpdateRun s r).primarySessionKey = s.primarySessionKey := by
  obtain ⟨rid, h⟩ := maybeUpdateRun_shape s r
  rw [h]

@[simp] lemma maybeUpdate_none (s : ClientState) (r : Option String) :
    maybeUpdateRunAndSession s r none = (maybeUpdateRun s r, []) := rfl

lemma maybeUpdate_emits_shape (s : ClientState) (r k : Option String) :
    (maybeUpdateRunAndSession s r k).2 = [] ∨
      ∃ sk, (maybeUpdateRunAndSession s r k).2 = [.streamSessionKey r sk] := by
  rcases k with _ | kv
  · exact Or.inl rfl
  · dsimp only [maybeUpdateRunAndSession]
    split
    · exact Or.inr ⟨kv, rfl⟩
    · exact Or.inl rfl

lemma maybeUpdateRun_runId_kept (s : ClientState) (r : Option String)
    (h : optTruthy s.activeRunId = true) :
    (maybeUpdateRun s r).activeRunId = s.activeRunId := by
  rcases r with _ | rv
  · rfl
  · dsimp only [maybeUpdateRun]
    rw [h]
    simp

lemma maybeUpdate_runId_kept (s : ClientState) (r k : Option String)
    (h : optTruthy s.activeRunId = true) :
    (maybeUpdateRunAndSession s r k).1.activeRunId = s.activeRunId := by
  rcases k with _ | kv
  · simp [maybeUpdateRun_runId_kept s r h]
  · dsimp only [maybeUpdateRunAndSession]
    split
    · simpa using maybeUpdateRun_runId_kept s r h
    · exact maybeUpdateRun_runId_kept s r h

lemma ensureStream_blocked (s : ClientState) (source : Source) (mode : Mode)
    (runId : Option String) (src' : Source)
    (h : s.activeStreamSource = some src') (hne : src' ≠ source) :
    ensureStream s source mode runId = (maybeUpdateRun s runId, []) := by
  have hsrc : (maybeUpdateRun s runId).activeStreamSource = some src' := by
    rw [maybeUpdateRun_source, h]
  have hc1 : ¬((maybeUpdateRun s runId).activeStreamSource = none) := by simp [h]
  have hc2 : (maybeUpdateRun s runId).activeStreamSource ≠ some source := by
    rw [maybeUpdateRun_source, h]
    simpa using hne
  simp only [ensureStream, maybeUpdate_none, if_neg hc1, if_pos hc2]

lemma ensureStream_open (s : ClientState) (source : Source) (mode : Mode)
    (runId : Option String)
    (h : s.activeStreamSource = none ∨ s.activeStreamSource = some source) :
    (ensureStream s source mode runId).1.activeStreamSource = some source ∧
      (ensureStream s source mode runId).1.streamStarted = true := by
  rcases h with h | h <;>
    simp only [ensureStream, maybeUpdate_none, maybeUpdateRun_source, h] <;>
    split_ifs <;> simp_all

lemma ensureStream_emits_shape (s : ClientState) (source : Source) (mode : Mode)
    (runId : Option String) :
    (ensureStream s source mode runId).2 = [] ∨
      ∃ k, (ensureStream s source mode runId).2 = [.streamStart k] := by
  simp only [ensureStream, maybeUpdate_none]
  split_ifs <;> first | exact Or.inl rfl | exact Or.inr ⟨_, rfl⟩

lemma ensureStream_inv (s : ClientState) (source : Source) (mode : Mode)
    (runId : Option String)
    (h : s.activeStreamSource.isSome → s.streamStarted = true) :
    (ensureStream s source mode runId).1.activeStreamSource.isSome →
      (ensureStream s source mode runId).1.streamStarted = true := by
  rcases hs : s.activeStreamSource with _ | src'
  · intro _
    exact (ensureStream_open s source mode runId (Or.inl hs)).2
  · rcases eq_or_ne src' source with he | he
    · intro _
      exact (ensureStream_open s source mode runId (Or.inr (he ▸ hs))).2
    · rw [ensureStream_blocked s source mode runId src' hs he]
      intro _
      rw [maybeUpdateRun_started]
      exact h (by rw [hs]; rfl)

lemma ensureStream_text (s : ClientState) (source : Source) (mode : Mode)
    (runId : Option String) :
    (ensureStream s source mode runId).1.assistantStreamText = s.assistantStreamText := by
  simp only [ensureStream, maybeUpdate_none]
  split_ifs <;> simp

lemma ensureStream_offset (s : ClientState) (source : Source) (mode : Mode)
    (runId : Option String) :
    (ensureStream s source mode runId).1.currentBlockOffset = s.currentBlockOffset := by
  simp only [ensureStream, maybeUpdate_none]
  split_ifs <;> simp

lemma ensureStream_primary (s : ClientState) (source : Source) (mode : Mode)
    (runId : Option String) :
    (ensureStream s source mode runId).1.primarySessionKey = s.primarySessionKey := by
  simp only [ensureStream, maybeUpdate_none]
  split_ifs <;> simp

lemma ensureStream_sessionKey (s : ClientState) (source : Source) (mode : Mode)
    (runId : Option String) :
    (ensureStream s source mode runId).1.activeSessionKey = s.activeSessionKey := by
  simp only [ensureStream, maybeUpdate_none]
  split_ifs <;> simp

@[simp] lemma applyStreamText_source (s : ClientState) (t : Text) :
    (applyStreamText s t).1.activeStreamSource = s.activeStreamSource := rfl

@[simp] lemma applyStreamText_mode (s : ClientState) (t : Text) :
    (applyStreamText s t).1.assistantStreamMode = s.assistantStreamMode := rfl

@[simp] lemma applyStreamText_offset (s : ClientState) (t : Text) :
    (applyStreamText s t).1.currentBlockOffset = s.currentBlockOffset := rfl

@[simp] lemma applyStreamText_started (s : ClientState) (t : Text) :
    (applyStreamText s t).1.streamStarted = s.streamStarted := rfl

@[simp] lemma applyStreamText_runId (s : ClientState) (t : Text) :
    (applyStreamText s t).1.activeRunId = s.activeRunId := rfl

@[simp] lemma applyStreamText_sessionKey (s : ClientState) (t : Text) :
    (applyStreamText s t).1.activeSessionKey = s.activeSessionKey := rfl

@[simp] lemma applyStreamText_primary (s : ClientState) (t : Text) :
    (applyStreamText s t).1.primarySessionKey = s.primarySessionKey := rfl

@[simp] lemma applyStreamText_text (s : ClientState) (t : Text) :
    (applyStreamText s t).1.assistantStreamText
      = (applyStreamTextPure s.assistantStreamText t).1 := rfl

@[simp] lemma applyStreamText_emits (s : ClientState) (t : Text) :
    (applyStreamText s t).2
      = ((applyStreamTextPure s.assistantStreamText t).2).map
          (fun c => .streamChunk c s.activeSessionKey) := rfl

@[simp] lemma mergeIncomingState_source (s : ClientState) (t : Text) (m : Mode) :
    (mergeIncomingState s t m).2.activeStreamSource = s.activeStreamSource := rfl

@[simp] lemma mergeIncomingState_text (s : ClientState) (t : Text) (m : Mode) :
    (mergeIncomingState s t m).2.assistantStreamText = s.assistantStreamText := rfl

@[simp] lemma mergeIncomingState_started (s : ClientState) (t : Text) (m : Mode) :
    (mergeIncomingState s t m).2.streamStarted = s.streamStarted := rfl

@[simp] lemma mergeIncomingState_sessionKey (s : ClientState) (t : Text) (m : Mode) :
    (mergeIncomingState s t m).2.activeSessionKey = s.activeSessionKey := rfl

@[simp] lemma mergeIncomingState_primary (s : ClientState) (t : Text) (m : Mode) :
    (mergeIncomingState s t m).2.primarySessionKey = s.primarySessionKey := rfl

@[simp] lemma mergeIncomingState_merged (s : ClientState) (t : Text) (m : Mode) :
    (mergeIncomingState s t m).1
      = (mergeIncoming s.assistantStreamText s.currentBlockOffset t m).1 := rfl

@[simp] lemma mergeIncomingState_offset (s : ClientState) (t : Text) (m : Mode) :
    (mergeIncomingState s t m).2.currentBlockOffset
      = (mergeIncoming s.assistantStreamText s.currentBlockOffset t m).2 := rfl

lemma detectEmits_shape (s : ClientState) (esk : Option String) :
    detectEmits s esk = [] ∨ ∃ k, detectEmits s esk = [.subagentDetected k] := by
  rcases hp : s.primarySessionKey with _ | pin <;> rcases esk with _ | sk <;>
    simp only [detectEmits, hp]
  · exact Or.inl trivial
  · exact Or.inl trivial
  · exact Or.inl trivial
  · split
    · exact Or.inr ⟨sk, rfl⟩
    · exact Or.inl rfl

lemma detectEmits_mem (s : ClientState) (esk : Option String) (k : String) :
    Emit.subagentDetected k ∈ detectEmits s esk ↔
      optTruthy s.primarySessionKey = true ∧ esk = some k ∧ k ≠ "" ∧
        s.primarySessionKey ≠ some k := by
  rcases hp : s.primarySessionKey with _ | pin <;> rcases esk with _ | sk <;>
    simp only [detectEmits, hp]
  · simp [optTruthy]
  · simp [optTruthy]
  · simp [optTruthy]
  · constructor
    · intro hm
      split at hm
      · next hC =>
        simp only [Bool.and_eq_true, Bool.not_eq_true', bne_iff_ne] at hC
        obtain ⟨⟨h1, h2⟩, h3⟩ := hC
        obtain rfl : k = sk := by simpa using hm
        refine ⟨by simp [optTruthy, h1], rfl, ?_, by simpa using (h3 : k ≠ pin).symm⟩
        intro hk0
        rw [hk0] at h2
        exact absurd h2 (by decide)
      · simp at hm
    · rintro ⟨ht, hsk, hk, hpin⟩
      obtain rfl : sk = k := by simpa using hsk
      have h1 : pin.isEmpty = false := by
        simpa [optTruthy] using ht
      have h2 : sk.isEmpty = false := by
        cases hh : sk.isEmpty
        · rfl
        · exact absurd ((String.isEmpty_iff sk).mp hh) hk
      have h3 : sk ≠ pin := fun hh => hpin (by rw [← hh])
      simp [h1, h2, bne_iff_ne.mpr h3]

@[simp] lemma chunkTexts_nil : chunkTexts [] = [] := rfl

@[simp] lemma chunkTexts_append (l1 l2 : List Emit) :
    chunkTexts (l1 ++ l2) = chunkTexts l1 ++ chunkTexts l2 :=
  List.filterMap_append l1 l2 chunkText?

lemma chunkTexts_detect (s : ClientState) (esk : Option String) :
    chunkTexts (detectEmits s esk) = [] := by
  rcases detectEmits_shape s esk with h | ⟨k, h⟩ <;> simp [h, chunkTexts, chunkText?]

lemma chunkTexts_maybeUpdate (s : ClientState) (r k : Option String) :
    chunkTexts ((maybeUpdateRunAndSession s r k).2) = [] := by
  rcases maybeUpdate_emits_shape s r k with h | ⟨sk, h⟩ <;>
    simp [h, chunkTexts, chunkText?]

lemma chunkTexts_ensureStream (s : ClientState) (source : Source) (mode : Mode)
    (runId : Option String) :
    chunkTexts ((ensureStream s source mode runId).2) = [] := by
  rcases ensureStream_emits_shape s source mode runId with h | ⟨k, h⟩ <;>
    simp [h, chunkTexts, chunkText?]

lemma chunkTexts_map_chunk (l : List Text) (sk : Option String) :
    chunkTexts (l.map (fun c => .streamChunk c sk)) = l := by
  simp only [chunkTexts, List.filterMap_map]
  induction l with
  | nil => rfl
  | cons a l ih => simp [chunkText?, ih]

/-! ## Branch lemmas for handleNotification -/

lemma emit_mem_maybeUpdate (s : ClientState) (r k : Option String) (em : Emit)
    (h : em ∈ (maybeUpdateRunAndSession s r k).2) :
    ∃ sk, em = Emit.streamSessionKey r sk := by
  rcases maybeUpdate_emits_shape s r k with hs | ⟨sk, hs⟩ <;> rw [hs] at h
  · simp at h
  · simp at h
    exact ⟨sk, h⟩

lemma emit_mem_ensureStream (s : ClientState) (source : Source) (mode : Mode)
    (runId : Option String) (em : Emit)
    (h : em ∈ (ensureStream s source mode runId).2) :
    ∃ k, em = Emit.streamStart k := by
  rcases ensureStream_emits_shape s source mode runId with hs | ⟨k, hs⟩ <;> rw [hs] at h
  · simp at h
  · simp at h
    exact ⟨k, h⟩

lemma emit_mem_detect (s : ClientState) (esk : Option String) (em : Emit)
    (h : em ∈ detectEmits s esk) : ∃ k, em = Emit.subagentDetected k := by
  rcases detectEmits_shape s esk with hs | ⟨k, hs⟩ <;> rw [hs] at h
  · simp at h
  · simp at h
    exact ⟨k, h⟩

lemma emit_mem_apply (s : ClientState) (t : Text) (em : Emit)
    (h : em ∈ (applyStreamText s t).2) :
    ∃ c, em = Emit.streamChunk c s.activeSessionKey := by
  rw [applyStreamText_emits] at h
  simp only [List.mem_map] at h
  obtain ⟨c, -, hc⟩ := h
  exact ⟨c, hc.symm⟩

lemma handleChatDelta_blocked (s : ClientState) (esk runId : Option String) (raw : Text)
    (h : s.activeStreamSource = some .agent) :
    handleChatDelta s esk runId raw
      = (maybeUpdateRun (maybeUpdateRunAndSession s runId esk).1 runId,
         (maybeUpdateRunAndSession s runId esk).2) := by
  have h1 : (maybeUpdateRunAndSession s runId esk).1.activeStreamSource = some .agent := by
    rw [maybeUpdate_source, h]
  have hes := ensureStream_blocked (maybeUpdateRunAndSession s runId esk).1 .chat
    .cumulative runId .agent h1 (by decide)
  have hguard : (maybeUpdateRun (maybeUpdateRunAndSession s runId esk).1 runId).activeStreamSource
      ≠ some Source.chat := by
    rw [maybeUpdateRun_source, h1]
    decide
  simp only [handleChatDelta, hes, if_pos hguard, List.append_nil]

lemma handleAgentAssistant_blocked (s : ClientState) (esk runId : Option String)
    (ct dt : Option Text) (h : s.activeStreamSource = some .chat) :
    handleAgentAssistant s esk runId ct dt
      = (maybeUpdateRun (maybeUpdateRunAndSession s runId esk).1 runId,
         (maybeUpdateRunAndSession s runId esk).2) := by
  have h1 : (maybeUpdateRunAndSession s runId esk).1.activeStreamSource = some .chat := by
    rw [maybeUpdate_source, h]
  have hes := ensureStream_blocked (maybeUpdateRunAndSession s runId esk).1 .agent
    (if ct.isSome then .cumulative else .delta) runId .chat h1 (by decide)
  have hguard : (maybeUpdateRun (maybeUpdateRunAndSession s runId esk).1 runId).activeStreamSource
      ≠ some Source.agent := by
    rw [maybeUpdateRun_source, h1]
    decide
  simp only [handleAgentAssistant, hes, if_pos hguard, List.append_nil]

lemma handleChatFinal_skip (s : ClientState) (esk runId : Option String)
    (msg : Option MsgInfo) (h : s.activeStreamSource = some .agent) :
    handleChatFinal s esk runId msg
      = ((maybeUpdateRunAndSession s runId esk).1, (maybeUpdateRunAndSession s runId esk).2) := by
  have h1 : (maybeUpdateRunAndSession s runId esk).1.activeStreamSource = some .agent := by
    rw [maybeUpdate_source, h]
  simp only [handleChatFinal, if_pos h1]

lemma handleAgentTool_started (s : ClientState) (esk runId : Option String)
    (h : s.streamStarted = true) :
    handleAgentTool s esk runId
      = ((maybeUpdateRunAndSession s runId esk).1,
         (maybeUpdateRunAndSession s runId esk).2 ++ [.toolCall esk]) := by
  have h1 : (maybeUpdateRunAndSession s runId esk).1.streamStarted = true := by
    rw [maybeUpdate_started, h]
  simp only [handleAgentTool, h1]
  simp

lemma handleAgentLifecycle_notAgent (s : ClientState) (esk runId : Option String)
    (phase state : Option String) (h : s.activeStreamSource = some .chat) :
    handleAgentLifecycle s esk runId phase state
      = ((maybeUpdateRunAndSession s runId esk).1, (maybeUpdateRunAndSession s runId esk).2) := by
  have h1 : (maybeUpdateRunAndSession s runId esk).1.activeStreamSource = some .chat := by
    rw [maybeUpdate_source, h]
  simp only [handleAgentLifecycle]
  split
  · simp [h]
  · rfl

lemma handleAgentLifecycle_end (s : ClientState) (esk runId : Option String)
    (phase state : Option String)
    (hsrc : s.activeStreamSource = some .agent) (hst : s.streamStarted = true)
    (hend : lifecycleIsEnd phase state = true) :
    handleAgentLifecycle s esk runId phase state
      = (initialState, (maybeUpdateRunAndSession s runId esk).2 ++ [.streamEnd esk]) := by
  have h1 : (maybeUpdateRunAndSession s runId esk).1.activeStreamSource = some .agent := by
    rw [maybeUpdate_source, hsrc]
  have h2 : (maybeUpdateRunAndSession s runId esk).1.streamStarted = true := by
    rw [maybeUpdate_started, hst]
  simp only [handleAgentLifecycle, hend, if_pos rfl]
  simp [hsrc, hst, resetStreamState]

/-! ## Claimed-implies-started invariant -/

lemma handleChatDelta_inv (s : ClientState) (esk runId : Option String) (raw : Text)
    (h : s.activeStreamSource.isSome → s.streamStarted = true) :
    (handleChatDelta s esk runId raw).1.activeStreamSource.isSome →
      (handleChatDelta s esk runId raw).1.streamStarted = true := by
  have hr1 : (maybeUpdateRunAndSession s runId esk).1.activeStreamSource.isSome →
      (maybeUpdateRunAndSession s runId esk).1.streamStarted = true := by
    rw [maybeUpdate_source, maybeUpdate_started]
    exact h
  have hr2 := ensureStream_inv (maybeUpdateRunAndSession s runId esk).1 .chat
    .cumulative runId hr1
  simp only [handleChatDelta]
  split
  · exact hr2
  · split
    · simpa using hr2
    · exact hr2

lemma handleAgentAssistant_inv (s : ClientState) (esk runId : Option String)
    (ct dt : Option Text)
    (h : s.activeStreamSource.isSome → s.streamStarted = true) :
    (handleAgentAssistant s esk runId ct dt).1.activeStreamSource.isSome →
      (handleAgentAssistant s esk runId ct dt).1.streamStarted = true := by
  have hr1 : (maybeUpdateRunAndSession s runId esk).1.activeStreamSource.isSome →
      (maybeUpdateRunAndSession s runId esk).1.streamStarted = true := by
    rw [maybeUpdate_source, maybeUpdate_started]
    exact h
  have hr2 : ∀ m : Mode,
      (ensureStream (maybeUpdateRunAndSession s runId esk).1 .agent m runId).1.activeStreamSource.isSome →
        (ensureStream (maybeUpdateRunAndSession s runId esk).1 .agent m runId).1.streamStarted = true :=
    fun m => ensureStream_inv (maybeUpdateRunAndSession s runId esk).1 .agent m runId hr1
  simp only [handleAgentAssistant]
  split
  all_goals
    split
    · exact hr2 _
    · split
      · simpa using hr2 _
      · split
        · simpa using hr2 _
        · exact hr2 _

lemma handleChatFinal_inv (s : ClientState) (esk runId : Option String)
    (msg : Option MsgInfo)
    (h : s.activeStreamSource.isSome → s.streamStarted = true) :
    (handleChatFinal s esk runId msg).1.activeStreamSource.isSome →
      (handleChatFinal s esk runId msg).1.streamStarted = true := by
  simp only [handleChatFinal]
  split
  · rw [maybeUpdate_source, maybeUpdate_started]
    exact h
  · intro hs
    simp [resetStreamState, initialState] at hs

lemma handleAgentTool_inv (s : ClientState) (esk runId : Option String)
    (h : s.activeStreamSource.isSome → s.streamStarted = true) :
    (handleAgentTool s esk runId).1.activeStreamSource.isSome →
      (handleAgentTool s esk runId).1.streamStarted = true := by
  simp only [handleAgentTool]
  split
  · intro _
    rfl
  · next hc =>
    simp only [Bool.not_eq_true', Bool.not_eq_false] at hc
    intro _
    exact hc

lemma handleAgentLifecycle_inv (s : ClientState) (esk runId : Option String)
    (phase state : Option String)
    (h : s.activeStreamSource.isSome → s.streamStarted = true) :
    (handleAgentLifecycle s esk runId phase state).1.activeStreamSource.isSome →
      (handleAgentLifecycle s esk runId phase state).1.streamStarted = true := by
  simp only [handleAgentLifecycle]
  split
  · split
    · intro hs
      simp [resetStreamState, initialState] at hs
    · rw [maybeUpdate_source, maybeUpdate_started]
      exact h
  · rw [maybeUpdate_source, maybeUpdate_started]
    exact h

lemma handleNotification_inv (s : ClientState) (e : Event)
    (h : s.activeStreamSource.isSome → s.streamStarted = true) :
    (handleNotification s e).1.activeStreamSource.isSome →
      (handleNotification s e).1.streamStarted = true := by
  cases e with
  | chatDelta sk runId raw =>
    simp only [handleNotification, eventSessionKey]
    split
    · exact h
    · exact handleChatDelta_inv s sk runId raw h
  | chatFinal sk runId msg =>
    simp only [handleNotification, eventSessionKey]
    split
    · exact h
    · exact handleChatFinal_inv s sk runId msg h
  | presence => exact h
  | agentAssistant sk runId ct dt =>
    simp only [handleNotification, eventSessionKey]
    split
    · exact h
    · exact handleAgentAssistant_inv s sk runId ct dt h
  | agentTool sk runId =>
    simp only [handleNotification, eventSessionKey]
    split
    · exact h
    · exact handleAgentTool_inv s sk runId h
  | agentLifecycle sk runId phase state =>
    simp only [handleNotification, eventSessionKey]
    split
    · exact h
    · exact handleAgentLifecycle_inv s sk runId phase state h

/-! ## Claim theorems -/

lemma noSignal_detect_mem (s : ClientState) (esk : Option String) (em : Emit)
    (h : em ∈ detectEmits s esk) : isStreamSignal em = false := by
  obtain ⟨k, rfl⟩ := emit_mem_detect s esk em h
  rfl

lemma noSignal_maybeUpdate_mem (s : ClientState) (r k : Option String) (em : Emit)
    (h : em ∈ (maybeUpdateRunAndSession s r k).2) : isStreamSignal em = false := by
  obtain ⟨sk, rfl⟩ := emit_mem_maybeUpdate s r k em h
  rfl

/-- Claim C4: source arbitration.  First conjunct: processing any event
preserves the invariant that a claimed stream has already fired
`streamStart`.  Second conjunct: once a source has claimed the stream
(and it has started), an event declared under the competing source
publishes no stream-lifecycle signal (`streamStart`/`streamChunk`/`streamEnd`). -/
theorem c4_source_arbitration :
    (∀ (s : ClientState) (e : Event),
       (s.activeStreamSource.isSome → s.streamStarted = true) →
       ((handleNotification s e).1.activeStreamSource.isSome →
         (handleNotification s e).1.streamStarted = true)) ∧
    (∀ (s : ClientState) (e : Event) (src src' : Source),
       s.activeStreamSource = some src → s.streamStarted = true →
       eventSource e = some src' → src' ≠ src →
       ((handleNotification s e).2.all (fun em => !isStreamSignal em)) = true) := by
  constructor
  · exact fun s e h => handleNotification_inv s e h
  · intro s e src src' hsrc hst hev hne
    rw [List.all_eq_true]
    suffices hsuf : ∀ em ∈ (handleNotification s e).2, isStreamSignal em = false by
      intro em hm
      simp [hsuf em hm]
    cases e with
    | presence => simp [eventSource] at hev
    | chatDelta sk runId raw =>
      have hsrc' : Source.chat = src' := by simpa [eventSource] using hev
      have hagent : s.activeStreamSource = some .agent := by
        cases src
        · exact absurd hsrc'.symm hne
        · exact hsrc
      intro em hm
      simp only [handleNotification, eventSessionKey] at hm
      split at hm
      · exact noSignal_detect_mem s sk em hm
      · rw [handleChatDelta_blocked s sk runId raw hagent] at hm
        rcases List.mem_append.mp hm with hm | hm
        · exact noSignal_detect_mem s sk em hm
        · exact noSignal_maybeUpdate_mem s runId sk em hm
    | chatFinal sk runId msg =>
      have hsrc' : Source.chat = src' := by simpa [eventSource] using hev
      have hagent : s.activeStreamSource = some .agent := by
        cases src
        · exact absurd hsrc'.symm hne
        · exact hsrc
      intro em hm
      simp only [handleNotification, eventSessionKey] at hm
      split at hm
      · exact noSignal_detect_mem s sk em hm
      · rw [handleChatFinal_skip s sk runId msg hagent] at hm
        rcases List.mem_append.mp hm with hm | hm
        · exact noSignal_detect_mem s sk em hm
        · exact noSignal_maybeUpdate_mem s runId sk em hm
    | agentAssistant sk runId ct dt =>
      have hsrc' : Source.agent = src' := by simpa [eventSource] using hev
      have hchat : s.activeStreamSource = some .chat := by
        cases src
        · exact hsrc
        · exact absurd hsrc'.symm hne
      intro em hm
      simp only [handleNotification, eventSessionKey] at hm
      split at hm
      · exact noSignal_detect_mem s sk em hm
      · rw [handleAgentAssistant_blocked s sk runId ct dt hchat] at hm
        rcases List.mem_append.mp hm with hm | hm
        · exact noSignal_detect_mem s sk em hm
        · exact noSignal_maybeUpdate_mem s runId sk em hm
    | agentTool sk runId =>
      intro em hm
      simp only [handleNotification, eventSessionKey] at hm
      split at hm
      · exact noSignal_detect_mem s sk em hm
      · rw [handleAgentTool_started s sk runId hst] at hm
        rcases List.mem_append.mp hm with hm | hm
        · exact noSignal_detect_mem s sk em hm
        · rcases List.mem_append.mp hm with hm | hm
          · exact noSignal_maybeUpdate_mem s runId sk em hm
          · obtain rfl : em = Emit.toolCall sk := by simpa using hm
            rfl
    | agentLifecycle sk runId phase state =>
      have hsrc' : Source.agent = src' := by simpa [eventSource] using hev
      have hchat : s.activeStreamSource = some .chat := by
        cases src
        · exact hsrc
        · exact absurd hsrc'.symm hne
      intro em hm
      simp only [handleNotification, eventSessionKey] at hm
      split at hm
      · exact noSignal_detect_mem s sk em hm
      · rw [handleAgentLifecycle_notAgent s sk runId phase state hchat] at hm
        rcases List.mem_append.mp hm with hm | hm
        · exact noSignal_detect_mem s sk em hm
        · exact noSignal_maybeUpdate_mem s runId sk em hm

/-- Witness for C4 at a concrete claimed-chat state and a competing
agent-assistant event. -/
theorem c4_source_arbitration_witness :
    ((⟨some .chat, "Hi".toList, some .cumulative, 0, true, none, none, none⟩ :
        ClientState).activeStreamSource = some Source.chat) ∧
    ((handleNotification
        ⟨some .chat, "Hi".toList, some .cumulative, 0, true, none, none, none⟩
        (.agentAssistant none none (some "x".toList) none)).2.all
      (fun em => !isStreamSignal em)) = true :=
  ⟨rfl,
   c4_source_arbitration.2
     ⟨some .chat, "Hi".toList, some .cumulative, 0, true, none, none, none⟩
     (.agentAssistant none none (some "x".toList) none)
     .chat .agent rfl rfl rfl (by decide)⟩

/-! ## Session-pin lemmas -/

lemma noSub_maybeUpdate_mem (s : ClientState) (r k : Option String) (em : Emit)
    (h : em ∈ (maybeUpdateRunAndSession s r k).2) : isSubagentEmit em = false := by
  obtain ⟨sk, rfl⟩ := emit_mem_maybeUpdate s r k em h
  rfl

lemma noSub_ensureStream_mem (s : ClientState) (source : Source) (mode : Mode)
    (runId : Option String) (em : Emit)
    (h : em ∈ (ensureStream s source mode runId).2) : isSubagentEmit em = false := by
  obtain ⟨k, rfl⟩ := emit_mem_ensureStream s source mode runId em h
  rfl

lemma noSub_apply_mem (s : ClientState) (t : Text) (em : Emit)
    (h : em ∈ (applyStreamText s t).2) : isSubagentEmit em = false := by
  obtain ⟨c, rfl⟩ := emit_mem_apply s t em h
  rfl

lemma noSub_handleChatDelta (s : ClientState) (esk runId : Option String) (raw : Text)
    (em : Emit) (h : em ∈ (handleChatDelta s esk runId raw).2) :
    isSubagentEmit em = false := by
  simp only [handleChatDelta] at h
  split at h
  · rcases List.mem_append.mp h with h | h
    · exact noSub_maybeUpdate_mem _ _ _ _ h
    · exact noSub_ensureStream_mem _ _ _ _ _ h
  · split at h
    · rcases List.mem_append.mp h with h | h
      · rcases List.mem_append.mp h with h | h
        · exact noSub_maybeUpdate_mem _ _ _ _ h
        · exact noSub_ensureStream_mem _ _ _ _ _ h
      · exact noSub_apply_mem _ _ _ h
    · rcases List.mem_append.mp h with h | h
      · exact noSub_maybeUpdate_mem _ _ _ _ h
      · exact noSub_ensureStream_mem _ _ _ _ _ h

lemma noSub_handleChatFinal (s : ClientState) (esk runId : Option String)
    (msg : Option MsgInfo) (em : Emit) (h : em ∈ (handleChatFinal s esk runId msg).2) :
    isSubagentEmit em = false := by
  rcases msg with _ | m <;> simp only [handleChatFinal] at h <;> split at h
  · exact noSub_maybeUpdate_mem _ _ _ _ h
  · rcases List.mem_append.mp h with h | h
    · rcases List.mem_append.mp h with h | h
      · exact noSub_maybeUpdate_mem _ _ _ _ h
      · simp at h
    · revert h
      split <;> intro h
      · obtain rfl : em = Emit.streamEnd esk := by simpa using h
        rfl
      · simp at h
  · exact noSub_maybeUpdate_mem _ _ _ _ h
  · rcases List.mem_append.mp h with h | h
    · rcases List.mem_append.mp h with h | h
      · exact noSub_maybeUpdate_mem _ _ _ _ h
      · revert h
        split <;> intro h
        · obtain rfl :
              em = Emit.message (resolveMessageId m.id runId) m.role m.content esk := by
            simpa using h
          rfl
        · simp at h
    · revert h
      split <;> intro h
      · obtain rfl : em = Emit.streamEnd esk := by simpa using h
        rfl
      · simp at h

lemma noSub_handleAgentAssistant (s : ClientState) (esk runId : Option String)
    (ct dt : Option Text) (em : Emit)
    (h : em ∈ (handleAgentAssistant s esk runId ct dt).2) :
    isSubagentEmit em = false := by
  simp only [handleAgentAssistant] at h
  split at h
  all_goals
    split at h
    · rcases List.mem_append.mp h with h | h
      · exact noSub_maybeUpdate_mem _ _ _ _ h
      · exact noSub_ensureStream_mem _ _ _ _ _ h
    · split at h
      · rcases List.mem_append.mp h with h | h
        · rcases List.mem_append.mp h with h | h
          · exact noSub_maybeUpdate_mem _ _ _ _ h
          · exact noSub_ensureStream_mem _ _ _ _ _ h
        · exact noSub_apply_mem _ _ _ h
      · split at h
        · rcases List.mem_append.mp h with h | h
          · rcases List.mem_append.mp h with h | h
            · exact noSub_maybeUpdate_mem _ _ _ _ h
            · exact noSub_ensureStream_mem _ _ _ _ _ h
          · exact noSub_apply_mem _ _ _ h
        · rcases List.mem_append.mp h with h | h
          · exact noSub_maybeUpdate_mem _ _ _ _ h
          · exact noSub_ensureStream_mem _ _ _ _ _ h

lemma noSub_handleAgentTool (s : ClientState) (esk runId : Option String)
    (em : Emit) (h : em ∈ (handleAgentTool s esk runId).2) :
    isSubagentEmit em = false := by
  simp only [handleAgentTool] at h
  split at h
  · rcases List.mem_append.mp h with h | h
    · exact noSub_maybeUpdate_mem _ _ _ _ h
    · rcases (by simpa using h : em = Emit.streamStart esk ∨ em = Emit.toolCall esk)
        with rfl | rfl <;> rfl
  · rcases List.mem_append.mp h with h | h
    · exact noSub_maybeUpdate_mem _ _ _ _ h
    · obtain rfl : em = Emit.toolCall esk := by simpa using h
      rfl

lemma noSub_handleAgentLifecycle (s : ClientState) (esk runId : Option String)
    (phase state : Option String) (em : Emit)
    (h : em ∈ (handleAgentLifecycle s esk runId phase state).2) :
    isSubagentEmit em = false := by
  simp only [handleAgentLifecycle] at h
  split at h
  · split at h
    · rcases List.mem_append.mp h with h | h
      · exact noSub_maybeUpdate_mem _ _ _ _ h
      · obtain rfl : em = Emit.streamEnd esk := by simpa using h
        rfl
    · exact noSub_maybeUpdate_mem _ _ _ _ h
  · exact noSub_maybeUpdate_mem _ _ _ _ h

lemma handleNotification_sub_iff (s : ClientState) (e : Event) (k : String) :
    Emit.subagentDetected k ∈ (handleNotification s e).2 ↔
      Emit.subagentDetected k ∈ detectEmits s (eventSessionKey e) := by
  have hback : ∀ l : List Emit,
      Emit.subagentDetected k ∈ detectEmits s (eventSessionKey e) →
        Emit.subagentDetected k ∈ detectEmits s (eventSessionKey e) ++ l :=
    fun l hm => List.mem_append.mpr (Or.inl hm)
  cases e with
  | presence =>
    simp only [handleNotification, eventSessionKey]
    constructor
    · intro hm
      rcases List.mem_append.mp hm with hm | hm
      · exact hm
      · simp at hm
    · exact hback _
  | chatDelta skf runId raw =>
    simp only [handleNotification, eventSessionKey]
    split
    · exact Iff.rfl
    · constructor
      · intro hm
        rcases List.mem_append.mp hm with hm | hm
        · exact hm
        · have := noSub_handleChatDelta s skf runId raw _ hm
          simp [isSubagentEmit] at this
      · exact hback _
  | chatFinal skf runId msg =>
    simp only [handleNotification, eventSessionKey]
    split
    · exact Iff.rfl
    · constructor
      · intro hm
        rcases List.mem_append.mp hm with hm | hm
        · exact hm
        · have := noSub_handleChatFinal s skf runId msg _ hm
          simp [isSubagentEmit] at this
      · exact hback _
  | agentAssistant skf runId ct dt =>
    simp only [handleNotification, eventSessionKey]
    split
    · exact Iff.rfl
    · constructor
      · intro hm
        rcases List.mem_append.mp hm with hm | hm
        · exact hm
        · have := noSub_handleAgentAssistant s skf runId ct dt _ hm
          simp [isSubagentEmit] at this
      · exact hback _
  | agentTool skf runId =>
    simp only [handleNotification, eventSessionKey]
    split
    · exact Iff.rfl
    · constructor
      · intro hm
        rcases List.mem_append.mp hm with hm | hm
        · exact hm
        · have := noSub_handleAgentTool s skf runId _ hm
          simp [isSubagentEmit] at this
      · exact hback _
  | agentLifecycle skf runId phase state =>
    simp only [handleNotification, eventSessionKey]
    split
    · exact Iff.rfl
    · constructor
      · intro hm
        rcases List.mem_append.mp hm with hm | hm
        · exact hm
        · have := noSub_handleAgentLifecycle s skf runId phase state _ hm
          simp [isSubagentEmit] at this
      · exact hback _

lemma shouldProcessEvent_reject (s : ClientState) (pin sk : String)
    (hp : s.primarySessionKey = some pin) (hpne : pin ≠ "")
    (hsk : sk ≠ "") (hne : sk ≠ pin) :
    shouldProcessEvent s (some sk) = false := by
  have h1 : pin.isEmpty = false := by
    cases hh : pin.isEmpty
    · rfl
    · exact absurd ((String.isEmpty_iff pin).mp hh) hpne
  have h2 : sk.isEmpty = false := by
    cases hh : sk.isEmpty
    · rfl
    · exact absurd ((String.isEmpty_iff sk).mp hh) hsk
  simp [shouldProcessEvent, optTruthy, hp, h1, h2, hne]

lemma handleNotification_rejected (s : ClientState) (e : Event) (sk : String)
    (hesk : eventSessionKey e = some sk)
    (hsp : shouldProcessEvent s (some sk) = false) :
    handleNotification s e = (s, detectEmits s (some sk)) := by
  cases e with
  | presence => simp [eventSessionKey] at hesk
  | chatDelta skf runId raw =>
    obtain rfl : skf = some sk := by simpa [eventSessionKey] using hesk
    simp [handleNotification, eventSessionKey, hsp]
  | chatFinal skf runId msg =>
    obtain rfl : skf = some sk := by simpa [eventSessionKey] using hesk
    simp [handleNotification, eventSessionKey, hsp]
  | agentAssistant skf runId ct dt =>
    obtain rfl : skf = some sk := by simpa [eventSessionKey] using hesk
    simp [handleNotification, eventSessionKey, hsp]
  | agentTool skf runId =>
    obtain rfl : skf = some sk := by simpa [eventSessionKey] using hesk
    simp [handleNotification, eventSessionKey, hsp]
  | agentLifecycle skf runId phase state =>
    obtain rfl : skf = some sk := by simpa [eventSessionKey] using hesk
    simp [handleNotification, eventSessionKey, hsp]

lemma optTruthy_of_ne (x : String) (h : x ≠ "") : optTruthy (some x) = true := by
  simp only [optTruthy]
  cases hh : x.isEmpty
  · rfl
  · exact absurd ((String.isEmpty_iff x).mp hh) h

/-- Claim C5: session pin filter.  While a pin is set, an event carrying a
different (truthy) session identifier is rejected before reaching the
reconciliation engine (state unchanged, no chunk) while still raising the
subagent-detection signal; an event with no session identifier passes the
filter; the detection signal is raised exactly for truthy non-pinned
session identifiers while a truthy pin is active; and the pin scenario
(`setPin "primary"`, assistant event for `"other"`, assistant event for
`"primary"`) behaves as specified. -/
theorem c5_session_pin_filter :
    (∀ (s : ClientState) (e : Event) (pin sk : String),
       s.primarySessionKey = some pin → pin ≠ "" →
       eventSessionKey e = some sk → sk ≠ "" → sk ≠ pin →
       (handleNotification s e).1 = s ∧
         chunkTexts (handleNotification s e).2 = [] ∧
         Emit.subagentDetected sk ∈ (handleNotification s e).2) ∧
    (∀ s : ClientState, shouldProcessEvent s none = true) ∧
    (∀ (s : ClientState) (e : Event) (k : String),
       Emit.subagentDetected k ∈ (handleNotification s e).2 ↔
         (optTruthy s.primarySessionKey = true ∧ eventSessionKey e = some k ∧
          k ≠ "" ∧ s.primarySessionKey ≠ some k)) ∧
    ((handleNotification
        ⟨none, [], none, 0, false, none, none, some "primary"⟩
        (.agentAssistant (some "other") none (some "hi".toList) none)).1
       = ⟨none, [], none, 0, false, none, none, some "primary"⟩ ∧
     chunkTexts (handleNotification
        ⟨none, [], none, 0, false, none, none, some "primary"⟩
        (.agentAssistant (some "other") none (some "hi".toList) none)).2 = [] ∧
     Emit.subagentDetected "other" ∈ (handleNotification
        ⟨none, [], none, 0, false, none, none, some "primary"⟩
        (.agentAssistant (some "other") none (some "hi".toList) none)).2 ∧
     chunkTexts (handleNotification
        (handleNotification
          ⟨none, [], none, 0, false, none, none, some "primary"⟩
          (.agentAssistant (some "other") none (some "hi".toList) none)).1
        (.agentAssistant (some "primary") none (some "hi".toList) none)).2
       = ["hi".toList] ∧
     ((handleNotification
        (handleNotification
          ⟨none, [], none, 0, false, none, none, some "primary"⟩
          (.agentAssistant (some "other") none (some "hi".toList) none)).1
        (.agentAssistant (some "primary") none (some "hi".toList) none)).2.all
       (fun em => !isSubagentEmit em)) = true) := by
  refine ⟨?_, ?_, ?_, ?_⟩
  · intro s e pin sk hp hpne hesk hskne hne
    have hsp := shouldProcessEvent_reject s pin sk hp hpne hskne hne
    have hrej := handleNotification_rejected s e sk hesk hsp
    rw [hrej]
    refine ⟨rfl, chunkTexts_detect s (some sk), ?_⟩
    refine (detectEmits_mem s (some sk) sk).mpr
      ⟨by rw [hp]; exact optTruthy_of_ne pin hpne, rfl, hskne, ?_⟩
    rw [hp]
    intro hh
    exact hne (Option.some.inj hh).symm
  · intro s
    simp [shouldProcessEvent, optTruthy]
  · intro s e k
    rw [handleNotification_sub_iff, detectEmits_mem]
  · refine ⟨by decide, by decide, by decide, by decide, by decide⟩

/-- Witness for C5 at a concrete pinned state and mismatched event. -/
theorem c5_session_pin_filter_witness :
    (handleNotification
        ⟨none, "x".toList, none, 0, false, none, none, some "primary"⟩
        (.chatDelta (some "other") none "y".toList)).1
      = ⟨none, "x".toList, none, 0, false, none, none, some "primary"⟩ ∧
    chunkTexts (handleNotification
        ⟨none, "x".toList, none, 0, false, none, none, some "primary"⟩
        (.chatDelta (some "other") none "y".toList)).2 = [] ∧
    Emit.subagentDetected "other" ∈ (handleNotification
        ⟨none, "x".toList, none, 0, false, none, none, some "primary"⟩
        (.chatDelta (some "other") none "y".toList)).2 :=
  c5_session_pin_filter.1
    ⟨none, "x".toList, none, 0, false, none, none, some "primary"⟩
    (.chatDelta (some "other") none "y".toList)
    "primary" "other" rfl (by decide) rfl (by decide) (by decide)

/-- Claim C6: a `chat` `final` event processed after an `agent` `lifecycle`
completion already ended the same response does not emit a second
stream-end signal, but still emits the canonical message event when it
carries (non-empty, non-heartbeat) message content. -/
theorem c6_late_chat_final (s : ClientState) (skL rIdL skF rIdF : Option String)
    (m : MsgInfo)
    (hsrc : s.activeStreamSource = some .agent) (hst : s.streamStarted = true)
    (hproc : shouldProcessEvent s skL = true)
    (hc : m.content ≠ []) (hh : isHeartbeatContent m.content = false) :
    Emit.streamEnd skL ∈
        (handleNotification s (.agentLifecycle skL rIdL (some "end") none)).2 ∧
    (handleNotification s (.agentLifecycle skL rIdL (some "end") none)).1
      = initialState ∧
    ((handleNotification
        (handleNotification s (.agentLifecycle skL rIdL (some "end") none)).1
        (.chatFinal skF rIdF (some m))).2.all (fun em => !isStreamEndEmit em)) = true ∧
    Emit.message (resolveMessageId m.id rIdF) m.role m.content skF ∈
      (handleNotification
        (handleNotification s (.agentLifecycle skL rIdL (some "end") none)).1
        (.chatFinal skF rIdF (some m))).2 := by
  have hend : lifecycleIsEnd (some "end") none = true := by decide
  have hlc := handleAgentLifecycle_end s skL rIdL (some "end") none hsrc hst hend
  have hgate : ¬((!shouldProcessEvent s skL) = true) := by simp [hproc]
  have hg : handleNotification s (.agentLifecycle skL rIdL (some "end") none)
      = ((handleAgentLifecycle s skL rIdL (some "end") none).1,
         detectEmits s skL ++ (handleAgentLifecycle s skL rIdL (some "end") none).2) := by
    simp only [handleNotification, eventSessionKey, if_neg hgate]
  have h1 : (handleNotification s (.agentLifecycle skL rIdL (some "end") none)).1
      = initialState := by
    rw [hg, hlc]
  have hgate2 : ¬((!shouldProcessEvent initialState skF) = true) := by
    simp [shouldProcessEvent, optTruthy, initialState]
  have hg2 : handleNotification initialState (.chatFinal skF rIdF (some m))
      = ((handleChatFinal initialState skF rIdF (some m)).1,
         detectEmits initialState skF
           ++ (handleChatFinal initialState skF rIdF (some m)).2) := by
    simp only [handleNotification, eventSessionKey, if_neg hgate2]
  have hc1 : ¬((maybeUpdateRunAndSession initialState rIdF skF).1.activeStreamSource
      = some Source.agent) := by
    rw [maybeUpdate_source]
    simp [initialState]
  have hcond : (!m.content.isEmpty && !isHeartbeatContent m.content) = true := by
    simp [List.isEmpty_eq_false.mpr hc, hh]
  have hst2 : (maybeUpdateRunAndSession initialState rIdF skF).1.streamStarted
      = false := by
    rw [maybeUpdate_started]
    rfl
  have hdet0 : detectEmits initialState skF = [] := rfl
  have hcf : handleChatFinal initialState skF rIdF (some m)
      = (initialState,
         (maybeUpdateRunAndSession initialState rIdF skF).2
           ++ [Emit.message (resolveMessageId m.id rIdF) m.role m.content skF]) := by
    simp only [handleChatFinal, if_neg hc1, hst2, resetStreamState]
    simp [hcond]
  refine ⟨?_, h1, ?_, ?_⟩
  · rw [hg, hlc]
    simp
  · rw [h1, hg2, hcf]
    rw [List.all_eq_true]
    intro em hm
    simp only [hdet0, List.nil_append] at hm
    rcases List.mem_append.mp hm with hm | hm
    · obtain ⟨sk2, rfl⟩ := emit_mem_maybeUpdate _ _ _ _ hm
      rfl
    · obtain rfl :
          em = Emit.message (resolveMessageId m.id rIdF) m.role m.content skF := by
        simpa using hm
      rfl
  · rw [h1, hg2, hcf]
    simp

/-- Witness for C6 at a concrete agent-claimed state and message. -/
theorem c6_late_chat_final_witness :
    Emit.streamEnd none ∈
        (handleNotification
          ⟨some .agent, "Hello".toList, some .delta, 0, true, none, none, none⟩
          (.agentLifecycle none none (some "end") none)).2 ∧
    (handleNotification
        ⟨some .agent, "Hello".toList, some .delta, 0, true, none, none, none⟩
        (.agentLifecycle none none (some "end") none)).1 = initialState ∧
    ((handleNotification
        (handleNotification
          ⟨some .agent, "Hello".toList, some .delta, 0, true, none, none, none⟩
          (.agentLifecycle none none (some "end") none)).1
        (.chatFinal none (some "run-9") (some ⟨some "id1", "assistant", "Hello".toList⟩))).2.all
      (fun em => !isStreamEndEmit em)) = true ∧
    Emit.message (resolveMessageId (some "id1") (some "run-9")) "assistant"
        "Hello".toList none ∈
      (handleNotification
        (handleNotification
          ⟨some .agent, "Hello".toList, some .delta, 0, true, none, none, none⟩
          (.agentLifecycle none none (some "end") none)).1
        (.chatFinal none (some "run-9") (some ⟨some "id1", "assistant", "Hello".toList⟩))).2 :=
  c6_late_chat_final
    ⟨some .agent, "Hello".toList, some .delta, 0, true, none, none, none⟩
    none none none (some "run-9") ⟨some "id1", "assistant", "Hello".toList⟩
    rfl rfl (by decide) (by decide) (by decide)

/-- Counterexample for C7 as stated: with run `"run-1"` active and a
`chat` stream mid-response (no end signalled), a `chat` delta event
carrying run identifier `"run-2"` does NOT reset the per-response stream
state: the adopted run identifier and the accumulated context are kept
(the text even grows), contradicting the claimed reset-and-drop. -/
theorem c7_counterexample :
    (handleNotification
        ⟨some .chat, "Hello".toList, some .cumulative, 0, true, some "run-1", none, none⟩
        (.chatDelta none (some "run-2") "!".toList)).1.activeRunId = some "run-1" ∧
    (handleNotification
        ⟨some .chat, "Hello".toList, some .cumulative, 0, true, some "run-1", none, none⟩
        (.chatDelta none (some "run-2") "!".toList)).1.assistantStreamText
      = "Hello\n\n!".toList ∧
    (handleNotification
        ⟨some .chat, "Hello".toList, some .cumulative, 0, true, some "run-1", none, none⟩
        (.chatDelta none (some "run-2") "!".toList)).1.assistantStreamText ≠ [] ∧
    (handleNotification
        ⟨some .chat, "Hello".toList, some .cumulative, 0, true, some "run-1", none, none⟩
        (.chatDelta none (some "run-2") "!".toList)).1 ≠ initialState := by
  refine ⟨by decide, by decide, by decide, by decide⟩

/-- Claim C7 (amended): observing a run identifier different from the
active one does not reset the engine.  `maybeUpdateRunAndSession` (the
only place run identifiers are examined) never touches the accumulated
text, the claimed source, the started flag or the block offset, and a
truthy already-adopted run identifier is never replaced; the session-pin
gate, not a run-identifier reset, filters foreign events. -/
theorem c7_no_reset_on_run_change (s : ClientState) (runId sessionKey : Option String) :
    (maybeUpdateRunAndSession s runId sessionKey).1.assistantStreamText
        = s.assistantStreamText ∧
    (maybeUpdateRunAndSession s runId sessionKey).1.activeStreamSource
        = s.activeStreamSource ∧
    (maybeUpdateRunAndSession s runId sessionKey).1.streamStarted = s.streamStarted ∧
    (maybeUpdateRunAndSession s runId sessionKey).1.currentBlockOffset
        = s.currentBlockOffset ∧
    (optTruthy s.activeRunId = true →
      (maybeUpdateRunAndSession s runId sessionKey).1.activeRunId = s.activeRunId) :=
  ⟨maybeUpdate_text s runId sessionKey, maybeUpdate_source s runId sessionKey,
   maybeUpdate_started s runId sessionKey, maybeUpdate_offset s runId sessionKey,
   fun h => maybeUpdate_runId_kept s runId sessionKey h⟩

/-- Witness for C7 (amended) at a concrete active-run state. -/
theorem c7_no_reset_on_run_change_witness :
    (maybeUpdateRunAndSession
        ⟨some .chat, "Hello".toList, some .cumulative, 0, true, some "run-1", none, none⟩
        (some "run-2") none).1.activeRunId = some "run-1" :=
  (c7_no_reset_on_run_change
    ⟨some .chat, "Hello".toList, some .cumulative, 0, true, some "run-1", none, none⟩
    (some "run-2") none).2.2.2.2 (by decide)

/-- Claim C1: the delta-convention merge rule.  A (proper)
prefix-extension emits exactly the extension; an incoming text already a
suffix of the held text emits nothing; otherwise exactly the remainder
past the longest overlap between the end of the held text and the start
of the incoming text is emitted (the loop's overlap amount is the
largest valid one); and the four-event scenario emits exactly the three
chunks `"No"`, `", I do not"`, `" see it"`. -/
theorem c1_delta_merge_rule :
    (∀ (held : Text) (off : Nat) (inc : Text), held <+: inc → inc ≠ held →
       processIncoming ⟨held, off⟩ inc .delta = (⟨inc, off⟩, [inc.drop held.length])) ∧
    (∀ (held : Text) (off : Nat) (inc : Text), inc <:+ held →
       processIncoming ⟨held, off⟩ inc .delta = (⟨held, off⟩, [])) ∧
    (∀ (held : Text) (off : Nat) (inc : Text), ¬ held <+: inc → ¬ inc <:+ held →
       (processIncoming ⟨held, off⟩ inc .delta).2
           = [inc.drop (overlapAmount held inc (min held.length inc.length))] ∧
         (inc.take (overlapAmount held inc (min held.length inc.length))) <:+ held ∧
         (∀ j, j ≤ min held.length inc.length → (inc.take j) <:+ held →
            j ≤ overlapAmount held inc (min held.length inc.length))) ∧
    chunkTexts (runEvents initialState
        [.agentAssistant none none none (some "No".toList),
         .agentAssistant none none none (some "No, I do not".toList),
         .agentAssistant none none none (some "No, I do not".toList),
         .agentAssistant none none none (some "No, I do not see it".toList)]).2
      = ["No".toList, ", I do not".toList, " see it".toList] := by
  refine ⟨?_, ?_, ?_, ?_⟩
  · exact fun held off inc h hne => processDelta_extension held off inc h hne
  · exact fun held off inc h => processDelta_suffix held off inc h
  · intro held off inc h1 h2
    refine ⟨?_, overlapAmount_suffix held inc _,
      fun j hj hs => overlapAmount_max held inc _ j hj hs⟩
    rw [processDelta_overlap held off inc h1 h2]
  · decide

/-- Witness for C1 at the concrete prefix-extension `"No"` → `"No, I"`. -/
theorem c1_delta_merge_rule_witness :
    ("No".toList <+: "No, I".toList) ∧
    processIncoming ⟨"No".toList, 0⟩ "No, I".toList .delta
      = (⟨"No, I".toList, 0⟩, [", I".toList]) := by
  refine ⟨by decide, ?_⟩
  rw [c1_delta_merge_rule.1 "No".toList 0 "No, I".toList (by decide) (by decide)]
  decide

/-- Counterexample for C2 as stated: the claim gives the current-block
extension check priority over the whole-text extension check, but the
source checks the whole text first.  At held text `"aba\n\nab"` with
block offset 5 (a reachable state, as the last conjunct shows), the
incoming cumulative text `"aba\n\nabX"` extends the current block
`"ab"`, yet the emitted chunk is `"X"` (the suffix relative to the
whole), not the suffix `"a\n\nabX"` relative to the block. -/
theorem c2_counterexample :
    ("aba\n\nab".toList.drop 5 ≠ []) ∧
    ("aba\n\nab".toList.drop 5 <+: "aba\n\nabX".toList) ∧
    (processIncoming ⟨"aba\n\nab".toList, 5⟩ "aba\n\nabX".toList .cumulative).2
      = ["X".toList] ∧
    ["X".toList]
      ≠ ["aba\n\nabX".toList.drop ("aba\n\nab".toList.drop 5).length] ∧
    (processAll ⟨[], 0⟩
        [("aba".toList, .cumulative), ("ab".toList, .cumulative),
         ("aba\n\nabX".toList, .cumulative)]).2
      = ["aba".toList, "\n\nab".toList, "X".toList] := by
  refine ⟨by decide, by decide, by decide, by decide, by decide⟩

/-- Claim C2 (amended): the cumulative-convention merge rule, with the
whole-text extension check taking priority over the current-block check
as in the source.  Empty held text adopts the incoming text; a whole-text
extension emits the suffix relative to the whole; otherwise a
current-block extension emits the suffix relative to the block (the held
record becoming the pre-boundary text plus the incoming text); otherwise
a new content block is emitted as the separator followed by the full
incoming text, the offset where the block begins is remembered, and the
prior accumulated text remains a prefix of the record. -/
theorem c2_cumulative_merge_rule :
    (∀ (off : Nat) (inc : Text),
       processIncoming ⟨[], off⟩ inc .cumulative
         = (⟨inc, off⟩, if inc = [] then [] else [inc])) ∧
    (∀ (held : Text) (off : Nat) (inc : Text), held ≠ [] → held <+: inc →
       processIncoming ⟨held, off⟩ inc .cumulative
         = (⟨inc, off⟩, if inc = held then [] else [inc.drop held.length])) ∧
    (∀ (held : Text) (off : Nat) (inc : Text), held ≠ [] → ¬ held <+: inc →
       held.drop off ≠ [] → held.drop off <+: inc →
       processIncoming ⟨held, off⟩ inc .cumulative
         = (⟨held.take off ++ inc, off⟩,
            if inc = held.drop off then [] else [inc.drop (held.drop off).length])) ∧
    (∀ (held : Text) (off : Nat) (inc : Text), held ≠ [] → ¬ held <+: inc →
       ¬ (held.drop off ≠ [] ∧ held.drop off <+: inc) →
       processIncoming ⟨held, off⟩ inc .cumulative
         = (⟨held ++ separator ++ inc, held.length + separator.length⟩,
            [separator ++ inc]) ∧
         held <+: held ++ separator ++ inc) :=
  ⟨processCumulative_empty,
   processCumulative_whole,
   processCumulative_block,
   fun held off inc hh hnw hnb =>
     ⟨processCumulative_newBlock held off inc hh hnw hnb,
      by rw [List.append_assoc]; exact List.prefix_append _ _⟩⟩

/-- Witness for C2 (amended) at a concrete new-block input. -/
theorem c2_cumulative_merge_rule_witness :
    processIncoming ⟨"aba".toList, 0⟩ "ab".toList .cumulative
      = (⟨"aba\n\nab".toList, 5⟩, ["\n\nab".toList]) := by
  rw [(c2_cumulative_merge_rule.2.2.2 "aba".toList 0 "ab".toList
    (by decide) (by decide) (by decide)).1]
  decide

/-- Claim C3: for a purely-additive delta sequence (each event's text
extends the previously delivered text), the concatenation of all emitted
chunks equals the final cumulative text. -/
theorem c3_additive_delta_concat (ts : List Text)
    (h : List.Chain' (· <+: ·) ts) :
    ((processAll ⟨[], 0⟩ (ts.map (fun t => (t, Mode.delta)))).2).flatten
      = ts.getLastD [] := by
  have hchain : List.Chain' (· <+: ·) (([] : Text) :: ts) := by
    rw [List.chain'_cons']
    exact ⟨fun y _ => List.nil_prefix, h⟩
  have h3 := processAll_delta_chain ts ⟨[], 0⟩ hchain
  have h2 := processAll_text (ts.map (fun t => (t, Mode.delta))) ⟨[], 0⟩
  have h2' : (processAll ⟨[], 0⟩ (ts.map (fun t => (t, Mode.delta)))).1.text
      = ((processAll ⟨[], 0⟩ (ts.map (fun t => (t, Mode.delta)))).2).flatten := by
    simpa using h2
  rw [← h3]
  exact h2'.symm

/-- Witness for C3 on a concrete two-step additive chain. -/
theorem c3_additive_delta_concat_witness :
    ((processAll ⟨[], 0⟩
        (["Hi".toList, "Hi there".toList].map (fun t => (t, Mode.delta)))).2).flatten
      = ["Hi".toList, "Hi there".toList].getLastD [] :=
  c3_additive_delta_concat ["Hi".toList, "Hi there".toList]
    (List.chain'_pair.mpr (by decide))

/-! ## Text-accumulation lemmas for the full event handler -/

lemma handleChatDelta_text (s : ClientState) (esk runId : Option String) (raw : Text) :
    (handleChatDelta s esk runId raw).1.assistantStreamText
      = s.assistantStreamText
          ++ (chunkTexts (handleChatDelta s esk runId raw).2).flatten := by
  simp only [handleChatDelta]
  split
  · simp [chunkTexts_maybeUpdate, chunkTexts_ensureStream, ensureStream_text]
  · split
    · have hp := processIncoming_text
        ⟨s.assistantStreamText, s.currentBlockOffset⟩ raw .cumulative
      simp only [processIncoming] at hp
      simpa [ensureStream_text, ensureStream_offset, chunkTexts_maybeUpdate,
        chunkTexts_ensureStream, chunkTexts_map_chunk] using hp
    · simp [chunkTexts_maybeUpdate, chunkTexts_ensureStream, ensureStream_text]

lemma handleAgentAssistant_text (s : ClientState) (esk runId : Option String)
    (ct dt : Option Text) :
    (handleAgentAssistant s esk runId ct dt).1.assistantStreamText
      = s.assistantStreamText
          ++ (chunkTexts (handleAgentAssistant s esk runId ct dt).2).flatten := by
  simp only [handleAgentAssistant]
  split
  all_goals
    split
    · simp [chunkTexts_maybeUpdate, chunkTexts_ensureStream, ensureStream_text]
    · split
      · have hp := processIncoming_text
          ⟨s.assistantStreamText, s.currentBlockOffset⟩ (ct.getD []) .cumulative
        simp only [processIncoming] at hp
        simpa [ensureStream_text, ensureStream_offset, chunkTexts_maybeUpdate,
          chunkTexts_ensureStream, chunkTexts_map_chunk] using hp
      · split
        · have hp := processIncoming_text
            ⟨s.assistantStreamText, s.currentBlockOffset⟩ (dt.getD []) .delta
          simp only [processIncoming] at hp
          simpa [ensureStream_text, ensureStream_offset, chunkTexts_maybeUpdate,
            chunkTexts_ensureStream, chunkTexts_map_chunk] using hp
        · simp [chunkTexts_maybeUpdate, chunkTexts_ensureStream, ensureStream_text]

lemma handleChatFinal_text (s : ClientState) (esk runId : Option String)
    (msg : Option MsgInfo) :
    (handleChatFinal s esk runId msg).1.assistantStreamText
        = s.assistantStreamText
            ++ (chunkTexts (handleChatFinal s esk runId msg).2).flatten
      ∨ (handleChatFinal s esk runId msg).1.assistantStreamText = [] := by
  simp only [handleChatFinal]
  split
  · left
    simp [chunkTexts_maybeUpdate]
  · right
    rfl

lemma handleAgentTool_text (s : ClientState) (esk runId : Option String) :
    (handleAgentTool s esk runId).1.assistantStreamText
      = s.assistantStreamText
          ++ (chunkTexts (handleAgentTool s esk runId).2).flatten := by
  simp only [handleAgentTool]
  split
  · have h0 : chunkTexts [Emit.streamStart esk, Emit.toolCall esk] = [] := rfl
    simp [chunkTexts_maybeUpdate, h0]
  · have h0 : chunkTexts [Emit.toolCall esk] = [] := rfl
    simp [chunkTexts_maybeUpdate, h0]

lemma handleAgentLifecycle_text (s : ClientState) (esk runId : Option String)
    (phase state : Option String) :
    (handleAgentLifecycle s esk runId phase state).1.assistantStreamText
        = s.assistantStreamText
            ++ (chunkTexts (handleAgentLifecycle s esk runId phase state).2).flatten
      ∨ (handleAgentLifecycle s esk runId phase state).1.assistantStreamText = [] := by
  simp only [handleAgentLifecycle]
  split
  · split
    · right
      rfl
    · left
      simp [chunkTexts_maybeUpdate]
  · left
    simp [chunkTexts_maybeUpdate]

/-- Claim C10: the accumulation invariant of the reconciliation engine.
The merge step always returns a text extending the held text (so the
append-with-separator fallback of `applyStreamText` never replaces
history); one pipeline step appends exactly the emitted chunks to the
held text; from a reset, the concatenation of all emitted chunks equals
the held text; and at the level of whole events, every processed event
either appends exactly its emitted chunk texts to the held text or is a
stream reset leaving the empty text. -/
theorem c10_accumulation_invariant :
    (∀ (prev : Text) (off : Nat) (inc : Text) (m : Mode),
       prev <+: (mergeIncoming prev off inc m).1) ∧
    (∀ (st : TextState) (inc : Text) (m : Mode),
       (processIncoming st inc m).1.text
         = st.text ++ ((processIncoming st inc m).2).flatten) ∧
    (∀ steps : List (Text × Mode),
       ((processAll ⟨[], 0⟩ steps).2).flatten = (processAll ⟨[], 0⟩ steps).1.text) ∧
    (∀ (s : ClientState) (e : Event),
       (handleNotification s e).1.assistantStreamText
           = s.assistantStreamText
               ++ (chunkTexts (handleNotification s e).2).flatten
         ∨ (handleNotification s e).1.assistantStreamText = []) := by
  refine ⟨mergeIncoming_extends, processIncoming_text, ?_, ?_⟩
  · intro steps
    have h := processAll_text steps ⟨[], 0⟩
    simpa using h.symm
  · intro s e
    cases e with
    | presence =>
      left
      have h0 : chunkTexts [Emit.agentStatus] = [] := rfl
      simp [handleNotification, eventSessionKey, chunkTexts_detect, h0]
    | chatDelta sk runId raw =>
      simp only [handleNotification, eventSessionKey]
      split
      · left
        simp [chunkTexts_detect]
      · left
        simp only [chunkTexts_append, chunkTexts_detect, List.nil_append]
        exact handleChatDelta_text s sk runId raw
    | chatFinal sk runId msg =>
      simp only [handleNotification, eventSessionKey]
      split
      · left
        simp [chunkTexts_detect]
      · rcases handleChatFinal_text s sk runId msg with h | h
        · left
          simp only [chunkTexts_append, chunkTexts_detect, List.nil_append]
          exact h
        · right
          exact h
    | agentAssistant sk runId ct dt =>
      simp only [handleNotification, eventSessionKey]
      split
      · left
        simp [chunkTexts_detect]
      · left
        simp only [chunkTexts_append, chunkTexts_detect, List.nil_append]
        exact handleAgentAssistant_text s sk runId ct dt
    | agentTool sk runId =>
      simp only [handleNotification, eventSessionKey]
      split
      · left
        simp [chunkTexts_detect]
      · left
        simp only [chunkTexts_append, chunkTexts_detect, List.nil_append]
        exact handleAgentTool_text s sk runId
    | agentLifecycle sk runId phase state =>
      simp only [handleNotification, eventSessionKey]
      split
      · left
        simp [chunkTexts_detect]
      · rcases handleAgentLifecycle_text s sk runId phase state with h | h
        · left
          simp only [chunkTexts_append, chunkTexts_detect, List.nil_append]
          exact h
        · right
          exact h

/-- Claim C8: request timeout.  If the timeout fires while the call is
still pending, the call rejects with the timeout-specific message and
its pending entry is removed; a later response frame carrying the same
request identifier on the (authenticated) connection is a no-op: it
settles nothing and changes no state. -/
theorem c8_request_timeout (st : CorrelatorState) (id method : String) (f : ResFrame)
    (hp : (id, method) ∈ st.pending) (hauth : st.authenticated = true)
    (hid : f.id = id) :
    (timeoutFire st id method).2 = some ("Request timeout: " ++ method) ∧
    ((timeoutFire st id method).1.pending.all (fun p => !(p.1 == id))) = true ∧
    handleRes (timeoutFire st id method).1 f = ((timeoutFire st id method).1, []) := by
  have hany : st.pending.any (fun p => p.1 == id) = true :=
    List.any_eq_true.mpr ⟨(id, method), hp, by simp⟩
  refine ⟨?_, ?_, ?_⟩
  · simp [timeoutFire, hany]
  · have hpend : (timeoutFire st id method).1.pending
        = st.pending.filter (fun p => !(p.1 == id)) := by
      simp [timeoutFire, hany]
    rw [hpend, List.all_eq_true]
    intro p hpmem
    exact (List.mem_filter.mp hpmem).2
  · have hpend : (timeoutFire st id method).1.pending.find? (fun p => p.1 == f.id)
        = none := by
      rw [List.find?_eq_none]
      intro x hx
      have hx' : x ∈ st.pending.filter (fun p => !(p.1 == id)) := by
        simpa [timeoutFire, hany] using hx
      have hnid := (List.mem_filter.mp hx').2
      rw [hid]
      simpa using hnid
    have hauth' : (timeoutFire st id method).1.authenticated = true := by
      simp [timeoutFire, hany, hauth]
    simp only [handleRes, hauth', hpend]
    simp

/-- Witness for C8 at a concrete pending call and late response. -/
theorem c8_request_timeout_witness :
    (timeoutFire ⟨true, 7, [("7", "m")]⟩ "7" "m").2
        = some ("Request timeout: " ++ "m") ∧
    ((timeoutFire ⟨true, 7, [("7", "m")]⟩ "7" "m").1.pending.all
        (fun p => !(p.1 == "7"))) = true ∧
    handleRes (timeoutFire ⟨true, 7, [("7", "m")]⟩ "7" "m").1 ⟨"7", true, false, none⟩
      = ((timeoutFire ⟨true, 7, [("7", "m")]⟩ "7" "m").1, []) :=
  c8_request_timeout ⟨true, 7, [("7", "m")]⟩ "7" "m" ⟨"7", true, false, none⟩
    (by decide) rfl rfl

/-- Claim C9: the inbound processing path is total.  A frame on which the
decode step fails is dropped with no state change and no action; and the
event-bus dispatch isolates handler exceptions — removing or keeping one
handler's outcome never prevents the handlers after it from running. -/
theorem c9_receive_path_total :
    (∀ (cs : ClientState) (st : CorrelatorState),
       handleMessage cs st none = ((cs, st), [])) ∧
    (∀ (α ε σ : Type) (pre post : List (α → Except ε σ)) (bad : α → Except ε σ)
       (err : ε) (a : α), bad a = Except.error err →
       runHandlers (pre ++ bad :: post) a = runHandlers pre a ++ runHandlers post a) ∧
    (∀ (α ε σ : Type) (pre post : List (α → Except ε σ)) (good : α → Except ε σ)
       (v : σ) (a : α), good a = Except.ok v →
       runHandlers (pre ++ good :: post) a
         = runHandlers pre a ++ v :: runHandlers post a) := by
  refine ⟨fun cs st => rfl, ?_, ?_⟩
  · intro α ε σ pre post bad err a hbad
    simp [runHandlers, List.filterMap_append, hbad, Except.toOption]
  · intro α ε σ pre post good v a hgood
    simp [runHandlers, List.filterMap_append, hgood, Except.toOption]

/-- Witness for C9: a malformed frame is a no-op, and a throwing handler
in the middle of the subscriber list does not stop the later handler. -/
theorem c9_receive_path_total_witness :
    handleMessage initialState ⟨true, 0, []⟩ none
        = ((initialState, ⟨true, 0, []⟩), []) ∧
    runHandlers
        ([fun n : Nat => (Except.ok (n + 1) : Except String Nat)]
          ++ (fun _ : Nat => (Except.error "boom" : Except String Nat))
            :: [fun n : Nat => (Except.ok (n + 2) : Except String Nat)]) 5
      = runHandlers [fun n : Nat => (Except.ok (n + 1) : Except String Nat)] 5
          ++ runHandlers [fun n : Nat => (Except.ok (n + 2) : Except String Nat)] 5 :=
  ⟨c9_receive_path_total.1 initialState ⟨true, 0, []⟩,
   c9_receive_path_total.2.1 Nat String Nat
     [fun n : Nat => (Except.ok (n + 1) : Except String Nat)]
     [fun n : Nat => (Except.ok (n + 2) : Except String Nat)]
     (fun _ : Nat => (Except.error "boom" : Except String Nat)) "boom" 5 rfl⟩

end ClawControl
